import Mathlib

/-!
Verification of the CHIP-8 emulator core (`emu.py`) against its
natural-language specification.

The machine state and every opcode handler are shallowly embedded from the
Python source.  Python integers and the floats produced by `/` (true
division) are both modelled as rationals (`ℚ`): exact rational division
models `vx / 100` faithfully up to float rounding, and the facts proved
here (in particular the non-integrality of the values that `op_FX33`
stores) are insensitive to that rounding.  Integer-only operations
(`%`, `>>`, `&`, `|`, `^`, list indexing) are modelled on the integral
part; at arguments where Python would raise a `TypeError` (e.g. indexing
a list with a float) the embedding returns a junk total value, and every
theorem below restricts attention to states where these guards are never
exercised.  `op_00EE` (stack pop) returns `Option`: `none` models the
`IndexError` that Python raises on an empty stack.
-/

namespace Chip8Emu

/-- Python `%` (modulo) on numbers: `a % m = a - m * floor(a / m)`.
On integer arguments this agrees with Python integer modulo (result has
the sign of `m`), and on float arguments with Python float modulo up to
float rounding. -/
def pmod (a m : ℚ) : ℚ := a - m * ⌊a / m⌋

/-- Conversion of a Python numeric value to a list index.  Python raises
`TypeError` on non-integral indices and interprets negative indices from
the end; the theorems below only ever use this on nonnegative integral
values, where it is exact. -/
def pyIdx (q : ℚ) : ℕ := (⌊q⌋).toNat

/-- Python slice read `l[a:b]` for `0 ≤ a ≤ b` (clips at the ends). -/
def pySlice (l : List α) (a b : ℕ) : List α := (l.drop a).take (b - a)

/-- Python slice assignment `l[a:b] = xs` for `0 ≤ a`, `0 ≤ b`:
the elements of positions `[a, b)` (clipped to the list) are removed and
`xs` is spliced in at position `a`.  Note this can change the length of
the list when the slice `[a, b)` is clipped. -/
def pySliceAssign (l : List α) (a b : ℕ) (xs : List α) : List α :=
  l.take a ++ xs ++ l.drop (max a b)

/-- Python `|` on integers (embedded via the integral part). -/
def pyOr (a b : ℚ) : ℚ := ((Int.lor ⌊a⌋ ⌊b⌋ : ℤ) : ℚ)

/-- Python `&` on integers (embedded via the integral part). -/
def pyAnd (a b : ℚ) : ℚ := ((Int.land ⌊a⌋ ⌊b⌋ : ℤ) : ℚ)

/-- Python `^` on integers (embedded via the integral part). -/
def pyXor (a b : ℚ) : ℚ := ((Int.xor ⌊a⌋ ⌊b⌋ : ℤ) : ℚ)

/-- Python `>> 1` on integers: arithmetic shift = floor division by 2. -/
def pyShr1 (q : ℚ) : ℚ := ((⌊q / 2⌋ : ℤ) : ℚ)

/-- The machine state of the emulator: the mutable fields of the
`Emulator` class.  Field names follow the source attributes. -/
structure Chip8 where
  memory : List ℚ
  registers : List ℚ
  address_i : ℚ
  program_counter : ℚ
  stack : List ℚ
  delay_timer : ℚ
  sound_timer : ℚ
  graphic_memory : List (List ℕ)
  keypad : List ℕ
  screen_changed : Bool
deriving DecidableEq

/-- `_graphic_memory[u][v]` (64 columns of 32 cells). -/
def getCell (g : List (List ℕ)) (u v : ℕ) : ℕ := (g.getD u []).getD v 0

/-- `_graphic_memory[u][v] = b`. -/
def setCell (g : List (List ℕ)) (u v : ℕ) (b : ℕ) : List (List ℕ) :=
  g.set u ((g.getD u []).set v b)

/-- `clear_graphic_memory`: 64x32 grid of zeros. -/
def clearGfx : List (List ℕ) := List.replicate 64 (List.replicate 32 0)

/-- `op_00E0`: clear the screen. -/
def op_00E0 (s : Chip8) : Chip8 :=
  { s with graphic_memory := clearGfx, screen_changed := true }

/-- `op_00EE`: return from subroutine; `none` models the `IndexError`
raised by `list.pop()` on an empty stack. -/
def op_00EE (s : Chip8) : Option Chip8 :=
  match s.stack.getLast? with
  | some v => some { s with program_counter := v, stack := s.stack.dropLast }
  | none => none

/-- `op_1NNN`: jump. -/
def op_1NNN (nnn : ℕ) (s : Chip8) : Chip8 :=
  { s with program_counter := (nnn : ℚ) }

/-- `op_2NNN`: call subroutine (append PC to the stack, then jump). -/
def op_2NNN (nnn : ℕ) (s : Chip8) : Chip8 :=
  { s with stack := s.stack ++ [s.program_counter], program_counter := (nnn : ℚ) }

/-- `op_3XNN`: skip next instruction if Vx = NN. -/
def op_3XNN (x nn : ℕ) (s : Chip8) : Chip8 :=
  if s.registers.getD x 0 = (nn : ℚ) then
    { s with program_counter := s.program_counter + 2 }
  else s

/-- `op_4XNN`: skip next instruction if Vx != NN. -/
def op_4XNN (x nn : ℕ) (s : Chip8) : Chip8 :=
  if s.registers.getD x 0 ≠ (nn : ℚ) then
    { s with program_counter := s.program_counter + 2 }
  else s

/-- `op_5XY0`: skip next instruction if Vx = Vy. -/
def op_5XY0 (x y : ℕ) (s : Chip8) : Chip8 :=
  if s.registers.getD x 0 = s.registers.getD y 0 then
    { s with program_counter := s.program_counter + 2 }
  else s

/-- `op_6XNN`: Vx := NN. -/
def op_6XNN (x nn : ℕ) (s : Chip8) : Chip8 :=
  { s with registers := s.registers.set x (nn : ℚ) }

/-- `op_7XNN`: Vx += NN, then reduce mod 256 if the result exceeds 0xff. -/
def op_7XNN (x nn : ℕ) (s : Chip8) : Chip8 :=
  let r1 := s.registers.set x (s.registers.getD x 0 + (nn : ℚ))
  let r2 := if 255 < r1.getD x 0 then r1.set x (pmod (r1.getD x 0) 256) else r1
  { s with registers := r2 }

/-- `op_8XY0`: Vx := Vy. -/
def op_8XY0 (x y : ℕ) (s : Chip8) : Chip8 :=
  { s with registers := s.registers.set x (s.registers.getD y 0) }

/-- `op_8XY1`: Vx |= Vy. -/
def op_8XY1 (x y : ℕ) (s : Chip8) : Chip8 :=
  { s with registers :=
      s.registers.set x (pyOr (s.registers.getD x 0) (s.registers.getD y 0)) }

/-- `op_8XY2`: Vx &= Vy. -/
def op_8XY2 (x y : ℕ) (s : Chip8) : Chip8 :=
  { s with registers :=
      s.registers.set x (pyAnd (s.registers.getD x 0) (s.registers.getD y 0)) }

/-- `op_8XY3`: Vx ^= Vy. -/
def op_8XY3 (x y : ℕ) (s : Chip8) : Chip8 :=
  { s with registers :=
      s.registers.set x (pyXor (s.registers.getD x 0) (s.registers.getD y 0)) }

/-- `op_8XY4`: Vx += Vy; if the result exceeds 0xff it is reduced mod 256
and VF := 1, otherwise VF := 0 (source statement order preserved). -/
def op_8XY4 (x y : ℕ) (s : Chip8) : Chip8 :=
  let r1 := s.registers.set x (s.registers.getD x 0 + s.registers.getD y 0)
  let r2 :=
    if 255 < r1.getD x 0 then (r1.set x (pmod (r1.getD x 0) 256)).set 15 1
    else r1.set 15 0
  { s with registers := r2 }

/-- `op_8XY5`: VF := not-borrow, then Vx -= Vy, reduced mod 256 if negative. -/
def op_8XY5 (x y : ℕ) (s : Chip8) : Chip8 :=
  let r1 := s.registers.set 15
    (if s.registers.getD y 0 ≤ s.registers.getD x 0 then 1 else 0)
  let r2 := r1.set x (r1.getD x 0 - r1.getD y 0)
  let r3 := if r2.getD x 0 < 0 then r2.set x (pmod (r2.getD x 0) 256) else r2
  { s with registers := r3 }

/-- `op_8XY6`: VF := Vx AND 1, then Vx >>= 1 (source statement order). -/
def op_8XY6 (x _y : ℕ) (s : Chip8) : Chip8 :=
  let r1 := s.registers.set 15 (pyAnd (s.registers.getD x 0) 1)
  let r2 := r1.set x (pyShr1 (r1.getD x 0))
  { s with registers := r2 }

/-- `op_8XY7`: VF := not-borrow, then Vx := Vy - Vx, reduced mod 256 if
negative. -/
def op_8XY7 (x y : ℕ) (s : Chip8) : Chip8 :=
  let r1 := s.registers.set 15
    (if s.registers.getD x 0 ≤ s.registers.getD y 0 then 1 else 0)
  let r2 := r1.set x (r1.getD y 0 - r1.getD x 0)
  let r3 := if r2.getD x 0 < 0 then r2.set x (pmod (r2.getD x 0) 256) else r2
  { s with registers := r3 }

/-- `op_8XYE`: Vx <<= 1 (i.e. doubled); if the result exceeds 0xff then
VF := 1 and Vx is reduced mod 256 (in that source order), else VF := 0. -/
def op_8XYE (x _y : ℕ) (s : Chip8) : Chip8 :=
  let r1 := s.registers.set x (s.registers.getD x 0 * 2)
  let r2 :=
    if 255 < r1.getD x 0 then
      let r := r1.set 15 1
      r.set x (pmod (r.getD x 0) 256)
    else r1.set 15 0
  { s with registers := r2 }

/-- `op_9XY0`: skip next instruction if Vx != Vy. -/
def op_9XY0 (x y : ℕ) (s : Chip8) : Chip8 :=
  if s.registers.getD x 0 ≠ s.registers.getD y 0 then
    { s with program_counter := s.program_counter + 2 }
  else s

/-- `op_ANNN`: I := NNN. -/
def op_ANNN (nnn : ℕ) (s : Chip8) : Chip8 :=
  { s with address_i := (nnn : ℚ) }

/-- `op_BNNN`: PC := NNN + V0. -/
def op_BNNN (nnn : ℕ) (s : Chip8) : Chip8 :=
  { s with program_counter := (nnn : ℚ) + s.registers.getD 0 0 }

/-- `op_CXNN`: Vx := random byte AND NN.  The call `randint(0, 0xff)` is
modelled by an oracle argument `rand`, reduced to the byte range. -/
def op_CXNN (x nn : ℕ) (rand : ℕ) (s : Chip8) : Chip8 :=
  { s with registers := s.registers.set x (((rand % 256) &&& nn : ℕ) : ℚ) }

/-- The sprite bit for column `c` of a row byte: character `c` of
`'{:08b}'.format(row_bits)`, which for a byte value below 256 is bit
`7 - c`. -/
def spriteBit (rowBits : ℚ) (c : ℕ) : ℕ := (pyIdx rowBits >>> (7 - c)) &&& 1

/-- One pixel write of `op_DXYN`: XOR the bit into the cell, then set
VF := 1 if the written cell is now nonzero. -/
def drawPixel (u v bit : ℕ) (g : List (List ℕ)) (regs : List ℚ) :
    List (List ℕ) × List ℚ :=
  let g1 := setCell g u v (getCell g u v ^^^ bit)
  (g1, if getCell g1 u v ≠ 0 then regs.set 15 1 else regs)

/-- The inner `for column in range(8)` loop of `op_DXYN`, over the listed
columns: pixels whose coordinates leave the 64x32 grid are skipped. -/
def drawCols (vx vy rowBits : ℚ) (ri : ℕ) :
    List ℕ → List (List ℕ) × List ℚ → List (List ℕ) × List ℚ
  | [], st => st
  | c :: cs, (g, regs) =>
    let xq : ℚ := vx + (c : ℚ)
    let yq : ℚ := vy + (ri : ℚ)
    if 64 ≤ xq ∨ 32 ≤ yq then drawCols vx vy rowBits ri cs (g, regs)
    else drawCols vx vy rowBits ri cs
      (drawPixel (pyIdx xq) (pyIdx yq) (spriteBit rowBits c) g regs)

/-- The outer `for row_i, row_bits in enumerate(...)` loop of `op_DXYN`. -/
def drawRows (vx vy : ℚ) :
    List ℚ → ℕ → List (List ℕ) × List ℚ → List (List ℕ) × List ℚ
  | [], _, st => st
  | b :: bs, ri, st =>
    drawRows vx vy bs (ri + 1) (drawCols vx vy b ri (List.range 8) st)

/-- `op_DXYN`: reset VF, then draw the N-row sprite at (Vx, Vy) by XOR. -/
def op_DXYN (x y n : ℕ) (s : Chip8) : Chip8 :=
  let regs0 := s.registers.set 15 0
  let vx := regs0.getD x 0
  let vy := regs0.getD y 0
  let i := pyIdx s.address_i
  let rows := pySlice s.memory i (i + n)
  let st := drawRows vx vy rows 0 (s.graphic_memory, regs0)
  { s with graphic_memory := st.1, registers := st.2, screen_changed := true }

/-- `op_EX9E`: skip if the key indexed by Vx is pressed. -/
def op_EX9E (x : ℕ) (s : Chip8) : Chip8 :=
  let k := pyIdx (s.registers.getD x 0)
  if s.keypad.getD k 0 ≠ 0 then
    { s with program_counter := s.program_counter + 2 }
  else s

/-- `op_EXA1`: skip if the key indexed by Vx is not pressed. -/
def op_EXA1 (x : ℕ) (s : Chip8) : Chip8 :=
  let k := pyIdx (s.registers.getD x 0)
  if s.keypad.getD k 0 = 0 then
    { s with program_counter := s.program_counter + 2 }
  else s

/-- `op_FX07`: Vx := delay timer. -/
def op_FX07 (x : ℕ) (s : Chip8) : Chip8 :=
  { s with registers := s.registers.set x s.delay_timer }

/-- `op_FX0A`: store the first pressed key index into Vx; if no key is
pressed, rewind PC by 2 so the instruction is refetched. -/
def op_FX0A (x : ℕ) (s : Chip8) : Chip8 :=
  match s.keypad.findIdx? (fun k => k != 0) with
  | some i => { s with registers := s.registers.set x (i : ℚ) }
  | none => { s with program_counter := s.program_counter - 2 }

/-- `op_FX15`: delay timer := Vx. -/
def op_FX15 (x : ℕ) (s : Chip8) : Chip8 :=
  { s with delay_timer := s.registers.getD x 0 }

/-- `op_FX18`: sound timer := Vx. -/
def op_FX18 (x : ℕ) (s : Chip8) : Chip8 :=
  { s with sound_timer := s.registers.getD x 0 }

/-- `op_FX1E`: I += Vx; VF := 1 if I now exceeds 0xfff, else 0. -/
def op_FX1E (x : ℕ) (s : Chip8) : Chip8 :=
  let i2 := s.address_i + s.registers.getD x 0
  { s with address_i := i2,
           registers := s.registers.set 15 (if 4095 < i2 then 1 else 0) }

/-- `op_FX29`: I := Vx * 5 (font glyph address). -/
def op_FX29 (x : ℕ) (s : Chip8) : Chip8 :=
  { s with address_i := s.registers.getD x 0 * 5 }

/-- `op_FX33`: the source stores `vx / 100` (Python 3 float division,
modelled as exact rational division), `(vx / 10) % 10` and
`(vx % 100) % 10` at I, I+1, I+2. -/
def op_FX33 (x : ℕ) (s : Chip8) : Chip8 :=
  let vx := s.registers.getD x 0
  let i := pyIdx s.address_i
  let m1 := s.memory.set i (vx / 100)
  let m2 := m1.set (i + 1) (pmod (vx / 10) 10)
  let m3 := m2.set (i + 2) (pmod (pmod vx 100) 10)
  { s with memory := m3 }

/-- `op_FX55`: memory[I : I + x + 1] := V0..Vx (slice assignment). -/
def op_FX55 (x : ℕ) (s : Chip8) : Chip8 :=
  let size := x + 1
  let i := pyIdx s.address_i
  { s with memory := pySliceAssign s.memory i (i + size) (s.registers.take size) }

/-- `op_FX65`: registers[0 : x + 1] := memory[I : I + x + 1] (slice
assignment). -/
def op_FX65 (x : ℕ) (s : Chip8) : Chip8 :=
  let size := x + 1
  let i := pyIdx s.address_i
  { s with registers :=
      pySliceAssign s.registers 0 size (pySlice s.memory i (i + size)) }

/-- A decoded instruction together with its extracted operands. -/
inductive Instr where
  | op00E0 | op00EE
  | op1NNN (nnn : ℕ) | op2NNN (nnn : ℕ)
  | op3XNN (x nn : ℕ) | op4XNN (x nn : ℕ)
  | op5XY0 (x y : ℕ) | op6XNN (x nn : ℕ) | op7XNN (x nn : ℕ)
  | op8XY0 (x y : ℕ) | op8XY1 (x y : ℕ) | op8XY2 (x y : ℕ)
  | op8XY3 (x y : ℕ) | op8XY4 (x y : ℕ) | op8XY5 (x y : ℕ)
  | op8XY6 (x y : ℕ) | op8XY7 (x y : ℕ) | op8XYE (x y : ℕ)
  | op9XY0 (x y : ℕ)
  | opANNN (nnn : ℕ) | opBNNN (nnn : ℕ) | opCXNN (x nn : ℕ)
  | opDXYN (x y n : ℕ)
  | opEX9E (x : ℕ) | opEXA1 (x : ℕ)
  | opFX07 (x : ℕ) | opFX0A (x : ℕ) | opFX15 (x : ℕ) | opFX18 (x : ℕ)
  | opFX1E (x : ℕ) | opFX29 (x : ℕ) | opFX33 (x : ℕ) | opFX55 (x : ℕ)
  | opFX65 (x : ℕ)
deriving DecidableEq

/-- One element of a compiled opcode pattern: a literal nibble, or a
wildcard group spanning `w` nibbles (`X`/`Y`/`N` span 1, `NN` 2, `NNN` 3). -/
inductive PatItem where
  | lit (v : ℕ)
  | wild (w : ℕ)
deriving DecidableEq

/-- The value of a wildcard group: its nibbles read as a hex number. -/
def groupVal (ds : List ℕ) : ℕ := ds.foldl (fun a d => 16 * a + d) 0

/-- Matching a compiled pattern against the nibbles of an instruction,
returning the extracted wildcard groups in left-to-right order (the
semantics of `re.match` on the 4-digit hex rendering). -/
def matchPat : List PatItem → List ℕ → Option (List ℕ)
  | [], _ => some []
  | .lit _ :: _, [] => none
  | .lit v :: ps, d :: ds => if d = v then matchPat ps ds else none
  | .wild w :: ps, ds => (matchPat ps (ds.drop w)).map (groupVal (ds.take w) :: ·)

/-- The four nibbles of a 16-bit instruction, most significant first
(the characters of its 4-digit hex rendering). -/
def toNibbles (op : ℕ) : List ℕ := [op / 4096 % 16, op / 256 % 16, op / 16 % 16, op % 16]

/-- The opcode table built by `init_opcodes`, in source definition order:
each entry is the compiled pattern of the handler name together with the
constructor binding the extracted operands. -/
def opTable : List (List PatItem × (List ℕ → Instr)) := [
  ([.lit 0, .lit 0, .lit 14, .lit 0], fun _ => .op00E0),
  ([.lit 0, .lit 0, .lit 14, .lit 14], fun _ => .op00EE),
  ([.lit 1, .wild 3], fun g => .op1NNN (g.getD 0 0)),
  ([.lit 2, .wild 3], fun g => .op2NNN (g.getD 0 0)),
  ([.lit 3, .wild 1, .wild 2], fun g => .op3XNN (g.getD 0 0) (g.getD 1 0)),
  ([.lit 4, .wild 1, .wild 2], fun g => .op4XNN (g.getD 0 0) (g.getD 1 0)),
  ([.lit 5, .wild 1, .wild 1, .lit 0], fun g => .op5XY0 (g.getD 0 0) (g.getD 1 0)),
  ([.lit 6, .wild 1, .wild 2], fun g => .op6XNN (g.getD 0 0) (g.getD 1 0)),
  ([.lit 7, .wild 1, .wild 2], fun g => .op7XNN (g.getD 0 0) (g.getD 1 0)),
  ([.lit 8, .wild 1, .wild 1, .lit 0], fun g => .op8XY0 (g.getD 0 0) (g.getD 1 0)),
  ([.lit 8, .wild 1, .wild 1, .lit 1], fun g => .op8XY1 (g.getD 0 0) (g.getD 1 0)),
  ([.lit 8, .wild 1, .wild 1, .lit 2], fun g => .op8XY2 (g.getD 0 0) (g.getD 1 0)),
  ([.lit 8, .wild 1, .wild 1, .lit 3], fun g => .op8XY3 (g.getD 0 0) (g.getD 1 0)),
  ([.lit 8, .wild 1, .wild 1, .lit 4], fun g => .op8XY4 (g.getD 0 0) (g.getD 1 0)),
  ([.lit 8, .wild 1, .wild 1, .lit 5], fun g => .op8XY5 (g.getD 0 0) (g.getD 1 0)),
  ([.lit 8, .wild 1, .wild 1, .lit 6], fun g => .op8XY6 (g.getD 0 0) (g.getD 1 0)),
  ([.lit 8, .wild 1, .wild 1, .lit 7], fun g => .op8XY7 (g.getD 0 0) (g.getD 1 0)),
  ([.lit 8, .wild 1, .wild 1, .lit 14], fun g => .op8XYE (g.getD 0 0) (g.getD 1 0)),
  ([.lit 9, .wild 1, .wild 1, .lit 0], fun g => .op9XY0 (g.getD 0 0) (g.getD 1 0)),
  ([.lit 10, .wild 3], fun g => .opANNN (g.getD 0 0)),
  ([.lit 11, .wild 3], fun g => .opBNNN (g.getD 0 0)),
  ([.lit 12, .wild 1, .wild 2], fun g => .opCXNN (g.getD 0 0) (g.getD 1 0)),
  ([.lit 13, .wild 1, .wild 1, .wild 1],
    fun g => .opDXYN (g.getD 0 0) (g.getD 1 0) (g.getD 2 0)),
  ([.lit 14, .wild 1, .lit 9, .lit 14], fun g => .opEX9E (g.getD 0 0)),
  ([.lit 14, .wild 1, .lit 10, .lit 1], fun g => .opEXA1 (g.getD 0 0)),
  ([.lit 15, .wild 1, .lit 0, .lit 7], fun g => .opFX07 (g.getD 0 0)),
  ([.lit 15, .wild 1, .lit 0, .lit 10], fun g => .opFX0A (g.getD 0 0)),
  ([.lit 15, .wild 1, .lit 1, .lit 5], fun g => .opFX15 (g.getD 0 0)),
  ([.lit 15, .wild 1, .lit 1, .lit 8], fun g => .opFX18 (g.getD 0 0)),
  ([.lit 15, .wild 1, .lit 1, .lit 14], fun g => .opFX1E (g.getD 0 0)),
  ([.lit 15, .wild 1, .lit 2, .lit 9], fun g => .opFX29 (g.getD 0 0)),
  ([.lit 15, .wild 1, .lit 3, .lit 3], fun g => .opFX33 (g.getD 0 0)),
  ([.lit 15, .wild 1, .lit 5, .lit 5], fun g => .opFX55 (g.getD 0 0)),
  ([.lit 15, .wild 1, .lit 6, .lit 5], fun g => .opFX65 (g.getD 0 0))]

/-- `decode`: the first table entry whose pattern matches the instruction,
with its operands extracted; `none` models the unmatched-opcode report
followed by the no-op lambda. -/
def decode (opcode : ℕ) : Option Instr :=
  opTable.findSome? fun e => (matchPat e.1 (toNibbles opcode)).map e.2

/-- Apply a decoded instruction to the state.  `rand` is the oracle for
`op_CXNN`.  `none` models a Python exception escaping the handler
(only `op_00EE` on an empty stack among the modelled behaviours). -/
def exec (ins : Instr) (rand : ℕ) (s : Chip8) : Option Chip8 :=
  match ins with
  | .op00E0 => some (op_00E0 s)
  | .op00EE => op_00EE s
  | .op1NNN nnn => some (op_1NNN nnn s)
  | .op2NNN nnn => some (op_2NNN nnn s)
  | .op3XNN x nn => some (op_3XNN x nn s)
  | .op4XNN x nn => some (op_4XNN x nn s)
  | .op5XY0 x y => some (op_5XY0 x y s)
  | .op6XNN x nn => some (op_6XNN x nn s)
  | .op7XNN x nn => some (op_7XNN x nn s)
  | .op8XY0 x y => some (op_8XY0 x y s)
  | .op8XY1 x y => some (op_8XY1 x y s)
  | .op8XY2 x y => some (op_8XY2 x y s)
  | .op8XY3 x y => some (op_8XY3 x y s)
  | .op8XY4 x y => some (op_8XY4 x y s)
  | .op8XY5 x y => some (op_8XY5 x y s)
  | .op8XY6 x y => some (op_8XY6 x y s)
  | .op8XY7 x y => some (op_8XY7 x y s)
  | .op8XYE x y => some (op_8XYE x y s)
  | .op9XY0 x y => some (op_9XY0 x y s)
  | .opANNN nnn => some (op_ANNN nnn s)
  | .opBNNN nnn => some (op_BNNN nnn s)
  | .opCXNN x nn => some (op_CXNN x nn rand s)
  | .opDXYN x y n => some (op_DXYN x y n s)
  | .opEX9E x => some (op_EX9E x s)
  | .opEXA1 x => some (op_EXA1 x s)
  | .opFX07 x => some (op_FX07 x s)
  | .opFX0A x => some (op_FX0A x s)
  | .opFX15 x => some (op_FX15 x s)
  | .opFX18 x => some (op_FX18 x s)
  | .opFX1E x => some (op_FX1E x s)
  | .opFX29 x => some (op_FX29 x s)
  | .opFX33 x => some (op_FX33 x s)
  | .opFX55 x => some (op_FX55 x s)
  | .opFX65 x => some (op_FX65 x s)

/-- `_fetch_next_opcode`: read the two bytes at PC as a big-endian 16-bit
instruction and advance PC by 2. -/
def fetch (s : Chip8) : ℕ × Chip8 :=
  let p := pyIdx s.program_counter
  let high := pyIdx (s.memory.getD p 0)
  let low := pyIdx (s.memory.getD (p + 1) 0)
  ((high <<< 8) ||| low, { s with program_counter := s.program_counter + 2 })

/-- The value of the instruction that `cycle` would fetch from `s`. -/
def fetchOpcode (s : Chip8) : ℕ := (fetch s).1

/-- The timer-decrement tail of `cycle`: each timer counts down by 1 if
nonzero. -/
def decTimers (s : Chip8) : Chip8 :=
  let s1 := if 0 < s.delay_timer then { s with delay_timer := s.delay_timer - 1 } else s
  if 0 < s1.sound_timer then { s1 with sound_timer := s1.sound_timer - 1 } else s1

/-- `cycle`: fetch, decode, apply, then decrement the timers.  A decode
failure is reported and applied as a no-op; a handler exception aborts
the cycle (`none`). -/
def cycle (rand : ℕ) (s : Chip8) : Option Chip8 :=
  let f := fetch s
  match decode f.1 with
  | none => some (decTimers f.2)
  | some ins => (exec ins rand f.2).map decTimers

/-- The 80-byte font set installed at memory 0x000 on initialization. -/
def fontset : List ℕ := [
  0xF0, 0x90, 0x90, 0x90, 0xF0,
  0x20, 0x60, 0x20, 0x20, 0x70,
  0xF0, 0x10, 0xF0, 0x80, 0xF0,
  0xF0, 0x10, 0xF0, 0x10, 0xF0,
  0x90, 0x90, 0xF0, 0x10, 0x10,
  0xF0, 0x80, 0xF0, 0x10, 0xF0,
  0xF0, 0x80, 0xF0, 0x90, 0xF0,
  0xF0, 0x10, 0x20, 0x40, 0x40,
  0xF0, 0x90, 0xF0, 0x90, 0xF0,
  0xF0, 0x90, 0xF0, 0x10, 0xF0,
  0xF0, 0x90, 0xF0, 0x90, 0x90,
  0xE0, 0x90, 0xE0, 0x90, 0xE0,
  0xF0, 0x80, 0x80, 0x80, 0xF0,
  0xE0, 0x90, 0x90, 0x90, 0xE0,
  0xF0, 0x80, 0xF0, 0x80, 0xF0,
  0xF0, 0x80, 0xF0, 0x80, 0x80]

/-- The machine state after `__init__`: zeroed memory with the font set
spliced in at 0x000, PC = 0x200, cleared screen. -/
def initState : Chip8 :=
  { memory := pySliceAssign (List.replicate 4096 (0 : ℚ)) 0 fontset.length
      (fontset.map (Nat.cast : ℕ → ℚ))
    registers := List.replicate 16 0
    address_i := 0
    program_counter := 0x200
    stack := []
    delay_timer := 0
    sound_timer := 0
    graphic_memory := clearGfx
    keypad := List.replicate 16 0
    screen_changed := true }

/-- `load`: splice the ROM bytes into memory starting at 0x200. -/
def load (rom : List ℕ) (s : Chip8) : Chip8 :=
  { s with memory := pySliceAssign s.memory 0x200 (0x200 + rom.length)
                       (rom.map (Nat.cast : ℕ → ℚ)) }

/-- A well-formed all-zero machine state, used as the base of the concrete
states in the witnesses below. -/
def baseState : Chip8 :=
  { memory := List.replicate 4096 0
    registers := List.replicate 16 0
    address_i := 0
    program_counter := 0x200
    stack := []
    delay_timer := 0
    sound_timer := 0
    graphic_memory := clearGfx
    keypad := List.replicate 16 0
    screen_changed := false }

/-- The in-bounds side conditions under which an instruction leaves the
memory size intact: only the two memory-writing opcodes need one (without
it, the slice assignment of `op_FX55` clips and changes the length, and
`op_FX33` would raise an `IndexError` in Python). -/
def memSafe (ins : Instr) (s : Chip8) : Prop :=
  match ins with
  | .opFX33 _ => pyIdx s.address_i + 3 ≤ 4096
  | .opFX55 x => x < 16 ∧ pyIdx s.address_i + (x + 1) ≤ 4096
  | _ => True

/-- Concrete state with V0 = 234 and I = 768, exercising `op_FX33`. -/
def fx33State : Chip8 :=
  { baseState with registers := (List.replicate 16 (0 : ℚ)).set 0 234,
                   address_i := 768 }

/-- Concrete state with VF = 10 and V0 = 20, exercising `op_8XY4` at
x = 0xF. -/
def c3State : Chip8 :=
  { baseState with registers := ((List.replicate 16 (0 : ℚ)).set 15 10).set 0 20 }

/-- Concrete state with I = 4095, exercising the clipped slice assignment
of `op_FX55`. -/
def c9State : Chip8 := { baseState with address_i := 4095 }

/-- The nibble-level constraints of a compiled pattern: one entry per
nibble position, `some v` for a literal nibble and `none` for a wildcard
position. -/
def nibConstraints (ps : List PatItem) : List (Option ℕ) :=
  ps.flatMap fun p => match p with
    | .lit v => [some v]
    | .wild w => List.replicate w none

/-- Nibble-wise matching of an instruction against the constraints. -/
def matchesNib : List (Option ℕ) → List ℕ → Bool
  | [], _ => true
  | _ :: _, [] => false
  | o :: os, d :: ds =>
    (match o with
     | none => true
     | some v => v == d) && matchesNib os ds

/-- Two constraint lists are separated when some position below 4 carries
two distinct literal nibbles; no instruction can then match both. -/
def sepAt (p q : List (Option ℕ)) : Bool :=
  (List.range 4).any fun j =>
    match p.getD j none, q.getD j none with
    | some a, some b => a != b
    | _, _ => false

/-- Whether a table entry matches an instruction. -/
def entryMatches (e : List PatItem × (List ℕ → Instr)) (op : ℕ) : Bool :=
  (matchPat e.1 (toNibbles op)).isSome

/-- The sprite bit of a byte value at column `c`, at the natural-number
level: bit `7 - c` (most significant bit on the left). -/
def spriteBitN (b c : ℕ) : ℕ := (b >>> (7 - c)) &&& 1

instance decidableExistsLtAnd (n : ℕ) (p : ℕ → Prop) [DecidablePred p] :
    Decidable (∃ r, r < n ∧ p r) :=
  decidable_of_iff (∃ r ∈ List.range n, p r) (by
    constructor
    · rintro ⟨r, hr, hp⟩
      exact ⟨r, List.mem_range.mp hr, hp⟩
    · rintro ⟨r, hr, hp⟩
      exact ⟨r, List.mem_range.mpr hr, hp⟩)

/-! ### Generic lemmas about the embedding primitives -/

theorem getD_set_self (l : List α) (i : ℕ) (a d : α) (h : i < l.length) :
    (l.set i a).getD i d = a := by
  simp [List.getD_eq_getElem?_getD, List.getElem?_set_self h]

theorem getD_set_ne (l : List α) (i j : ℕ) (a d : α) (h : i ≠ j) :
    (l.set i a).getD j d = l.getD j d := by
  simp [List.getD_eq_getElem?_getD, List.getElem?_set_ne h]

theorem pyIdx_natCast (n : ℕ) : pyIdx ((n : ℚ)) = n := by
  simp [pyIdx]

theorem floor_natCast_div (n m : ℕ) : ⌊(n : ℚ) / (m : ℚ)⌋ = ((n / m : ℕ) : ℤ) := by
  have h := Rat.floor_intCast_div_natCast (n : ℤ) m
  have h2 : (((n : ℤ) : ℚ)) = (n : ℚ) := by push_cast; ring
  rw [h2] at h
  rw [h]
  exact_mod_cast rfl

theorem pmod_natCast (n m : ℕ) : pmod (n : ℚ) (m : ℚ) = ((n % m : ℕ) : ℚ) := by
  unfold pmod
  rw [floor_natCast_div]
  have h : (m * (n / m) + n % m : ℕ) = n := Nat.div_add_mod n m
  have h2 : (m : ℚ) * ((n / m : ℕ) : ℚ) + ((n % m : ℕ) : ℚ) = (n : ℚ) := by
    exact_mod_cast congrArg (fun k : ℕ => (k : ℚ)) h
  have h3 : ((((n / m : ℕ) : ℤ)) : ℚ) = ((n / m : ℕ) : ℚ) := Int.cast_natCast _
  rw [h3]
  linarith

theorem pySliceAssign_length (l xs : List α) (a b : ℕ) :
    (pySliceAssign l a b xs).length =
      min a l.length + xs.length + (l.length - max a b) := by
  simp [pySliceAssign]
  omega

/-! ### C1: FX33 and the base-10 digits -/

/-- C1 (code bug): at V0 = 234, I = 768, `op_FX33` stores `234 / 100` and
`(234 / 10) % 10` computed with true division — the non-integer values
117/50 = 2.34 and 17/5 = 3.4 — at memory[I] and memory[I+1] (only the
ones digit 4 at memory[I+2] is the claimed integer digit), so the claim
that memory[I..I+3) = [2, 3, 4] fails on the code. -/
theorem op_FX33_float_bug :
    (op_FX33 0 fx33State).memory.getD 768 0 = 117 / 50 ∧
    (op_FX33 0 fx33State).memory.getD 769 0 = 17 / 5 ∧
    (op_FX33 0 fx33State).memory.getD 770 0 = 4 ∧
    ¬ ((op_FX33 0 fx33State).memory.getD 768 0 = ((2 : ℕ) : ℚ) ∧
       (op_FX33 0 fx33State).memory.getD 769 0 = ((3 : ℕ) : ℚ) ∧
       (op_FX33 0 fx33State).memory.getD 770 0 = ((4 : ℕ) : ℚ)) := by
  have hlen : fx33State.memory.length = 4096 := by
    have e : fx33State.memory = List.replicate 4096 (0 : ℚ) := rfl
    rw [e, List.length_replicate]
  have hv : fx33State.registers.getD 0 0 = (234 : ℚ) := by
    have e : fx33State.registers = (List.replicate 16 (0 : ℚ)).set 0 234 := rfl
    rw [e, getD_set_self]
    simp
  have hi : pyIdx fx33State.address_i = 768 := by
    have e : fx33State.address_i = (768 : ℚ) := rfl
    have e2 : (768 : ℚ) = ((768 : ℕ) : ℚ) := by norm_num
    rw [e, e2, pyIdx_natCast]
  have hm : (op_FX33 0 fx33State).memory =
      ((fx33State.memory.set 768 ((234 : ℚ) / 100)).set 769
        (pmod ((234 : ℚ) / 10) 10)).set 770 (pmod (pmod 234 100) 10) := by
    simp only [op_FX33, hv, hi]
  have hL1 : 768 < fx33State.memory.length := by omega
  have hL2 : 769 < (fx33State.memory.set 768 ((234 : ℚ) / 100)).length := by
    rw [List.length_set]; omega
  have hL3 : 770 <
      ((fx33State.memory.set 768 ((234 : ℚ) / 100)).set 769
        (pmod ((234 : ℚ) / 10) 10)).length := by
    rw [List.length_set, List.length_set]; omega
  have e1 : (op_FX33 0 fx33State).memory.getD 768 0 = 117 / 50 := by
    rw [hm, getD_set_ne _ _ _ _ _ (by norm_num), getD_set_ne _ _ _ _ _ (by norm_num),
      getD_set_self _ _ _ _ hL1]
    norm_num
  have e2 : (op_FX33 0 fx33State).memory.getD 769 0 = 17 / 5 := by
    rw [hm, getD_set_ne _ _ _ _ _ (by norm_num), getD_set_self _ _ _ _ hL2]
    have hf : ⌊((234 : ℚ) / 10) / 10⌋ = 2 := by
      rw [Int.floor_eq_iff]
      norm_num
    unfold pmod
    rw [hf]
    norm_num
  have e3 : (op_FX33 0 fx33State).memory.getD 770 0 = 4 := by
    rw [hm, getD_set_self _ _ _ _ hL3]
    have hf1 : ⌊(234 : ℚ) / 100⌋ = 2 := by
      rw [Int.floor_eq_iff]
      norm_num
    have hp1 : pmod (234 : ℚ) 100 = 34 := by
      unfold pmod
      rw [hf1]
      norm_num
    rw [hp1]
    have hf2 : ⌊(34 : ℚ) / 10⌋ = 3 := by
      rw [Int.floor_eq_iff]
      norm_num
    unfold pmod
    rw [hf2]
    norm_num
  refine ⟨e1, e2, e3, ?_⟩
  rintro ⟨h1, -, -⟩
  rw [e1] at h1
  norm_num at h1

/-! ### C3: 8XY4 add with carry -/

/-- C3 (counterexample): at x = 0xF, y = 0, VF = 10, V0 = 20, the final
Vx = VF is the carry flag 0, not (10 + 20) mod 256 = 30, so the claim
fails when quantified over the flag register itself. -/
theorem op_8XY4_flag_overwrites_sum :
    ¬ ((op_8XY4 15 0 c3State).registers.getD 15 0 = (((10 + 20) % 256 : ℕ) : ℚ)) := by
  have hL : c3State.registers.length = 16 := by
    have e : c3State.registers = ((List.replicate 16 (0 : ℚ)).set 15 10).set 0 20 := rfl
    rw [e, List.length_set, List.length_set, List.length_replicate]
  have h1 : c3State.registers.getD 15 0 = (10 : ℚ) := by
    have e : c3State.registers = ((List.replicate 16 (0 : ℚ)).set 15 10).set 0 20 := rfl
    rw [e, getD_set_ne _ _ _ _ _ (by norm_num), getD_set_self]
    simp
  have h2 : c3State.registers.getD 0 0 = (20 : ℚ) := by
    have e : c3State.registers = ((List.replicate 16 (0 : ℚ)).set 15 10).set 0 20 := rfl
    rw [e, getD_set_self]
    rw [List.length_set]
    simp
  have hL1 : (15 : ℕ) < c3State.registers.length := by omega
  have hL2 : (15 : ℕ) < (c3State.registers.set 15 ((10 : ℚ) + 20)).length := by
    rw [List.length_set]; omega
  simp only [op_8XY4, h1, h2]
  rw [getD_set_self _ _ _ _ hL1]
  rw [if_neg (by norm_num : ¬ ((255 : ℚ) < 10 + 20))]
  rw [getD_set_self _ _ _ _ hL2]
  intro h
  norm_num at h

/-- C3 (amended): for every register index x other than 0xF, every y, and
8-bit values a in Vx and b in Vy, `op_8XY4` leaves Vx = (a + b) mod 256
and VF = 1 iff a + b > 255. -/
theorem op_8XY4_spec (x y a b : ℕ) (s : Chip8) (hx : x < 16) (_hy : y < 16)
    (hxf : x ≠ 15) (hlen : s.registers.length = 16)
    (ha : s.registers.getD x 0 = (a : ℚ)) (hb : s.registers.getD y 0 = (b : ℚ))
    (ha2 : a < 256) (hb2 : b < 256) :
    (op_8XY4 x y s).registers.getD x 0 = (((a + b) % 256 : ℕ) : ℚ) ∧
    (op_8XY4 x y s).registers.getD 15 0 = (if 255 < a + b then (1 : ℚ) else 0) := by
  have hxlen : x < s.registers.length := by omega
  have hxlen2 : x < (s.registers.set x ((a : ℚ) + (b : ℚ))).length := by
    rw [List.length_set]; omega
  have h15len2 : (15 : ℕ) < (s.registers.set x ((a : ℚ) + (b : ℚ))).length := by
    rw [List.length_set]; omega
  simp only [op_8XY4, ha, hb]
  rw [getD_set_self _ _ _ _ hxlen]
  have hcast : (a : ℚ) + (b : ℚ) = ((a + b : ℕ) : ℚ) := by push_cast; ring
  by_cases hc : 255 < a + b
  · have hc2 : (255 : ℚ) < (a : ℚ) + (b : ℚ) := by
      rw [hcast]; exact_mod_cast hc
    rw [if_pos hc2, if_pos hc]
    constructor
    · rw [getD_set_ne _ _ _ _ _ (by omega : (15 : ℕ) ≠ x),
        getD_set_self _ _ _ _ hxlen2, hcast]
      have h256 : (256 : ℚ) = ((256 : ℕ) : ℚ) := by norm_num
      rw [h256, pmod_natCast]
    · rw [getD_set_self]
      rw [List.length_set, List.length_set]; omega
  · have hc2 : ¬ ((255 : ℚ) < (a : ℚ) + (b : ℚ)) := by
      rw [hcast]; exact_mod_cast hc
    rw [if_neg hc2, if_neg hc]
    constructor
    · rw [getD_set_ne _ _ _ _ _ (by omega : (15 : ℕ) ≠ x),
        getD_set_self _ _ _ _ hxlen, hcast]
      congr 1
      omega
    · rw [getD_set_self _ _ _ _ h15len2]

/-- Witness for the amended C3 theorem at x = 1, y = 2, a = 200, b = 100. -/
theorem op_8XY4_spec_witness :
    (op_8XY4 1 2 { baseState with
        registers := ((List.replicate 16 (0 : ℚ)).set 1 200).set 2 100 }).registers.getD 1 0 =
      (((200 + 100) % 256 : ℕ) : ℚ) ∧
    (op_8XY4 1 2 { baseState with
        registers := ((List.replicate 16 (0 : ℚ)).set 1 200).set 2 100 }).registers.getD 15 0 =
      (if 255 < 200 + 100 then (1 : ℚ) else 0) := by
  refine op_8XY4_spec 1 2 200 100 _ (by norm_num) (by norm_num) (by norm_num)
    ?_ ?_ ?_ (by norm_num) (by norm_num)
  · simp [baseState]
  · have e : ({ baseState with
        registers := ((List.replicate 16 (0 : ℚ)).set 1 200).set 2 100 } : Chip8).registers =
        ((List.replicate 16 (0 : ℚ)).set 1 200).set 2 100 := rfl
    rw [e, getD_set_ne _ _ _ _ _ (by norm_num), getD_set_self _ _ _ _ (by simp)]
    norm_num
  · have e : ({ baseState with
        registers := ((List.replicate 16 (0 : ℚ)).set 1 200).set 2 100 } : Chip8).registers =
        ((List.replicate 16 (0 : ℚ)).set 1 200).set 2 100 := rfl
    rw [e, getD_set_self _ _ _ _ (by simp)]
    norm_num

/-! ### C6: 00EE return from subroutine -/

/-- C6: with a non-empty stack, `op_00EE` pops the most recently pushed
value into PC and removes it; with an empty stack it fails fast (`none`,
the `IndexError` of `list.pop`), producing no PC value at all. -/
theorem op_00EE_spec (s : Chip8) :
    (∀ (st : List ℚ) (v : ℚ), s.stack = st ++ [v] →
      op_00EE s = some { s with program_counter := v, stack := st }) ∧
    (s.stack = [] → op_00EE s = none) := by
  constructor
  · intro st v hst
    unfold op_00EE
    rw [hst, List.getLast?_concat]
    rw [List.dropLast_concat]
  · intro hst
    unfold op_00EE
    rw [hst]
    rfl

/-- Witness for C6 at the concrete stack [1536]. -/
theorem op_00EE_spec_witness :
    op_00EE { baseState with stack := [(1536 : ℚ)] } =
      some { { baseState with stack := [(1536 : ℚ)] } with
             program_counter := (1536 : ℚ), stack := [] } :=
  (op_00EE_spec { baseState with stack := [(1536 : ℚ)] }).1 [] 1536 rfl

/-! ### C10: 7XNN frame effect -/

/-- C10: `op_7XNN` with x other than 0xF modifies only Vx: memory, I, PC,
the stack, both timers, the framebuffer, the keypad, and every register
with another index (in particular VF, which gets no carry flag from this
opcode) are unchanged. -/
theorem op_7XNN_frame (x nn : ℕ) (s : Chip8) (hx : x < 16) (hxf : x ≠ 15) :
    (op_7XNN x nn s).memory = s.memory ∧
    (op_7XNN x nn s).address_i = s.address_i ∧
    (op_7XNN x nn s).program_counter = s.program_counter ∧
    (op_7XNN x nn s).stack = s.stack ∧
    (op_7XNN x nn s).delay_timer = s.delay_timer ∧
    (op_7XNN x nn s).sound_timer = s.sound_timer ∧
    (op_7XNN x nn s).graphic_memory = s.graphic_memory ∧
    (op_7XNN x nn s).keypad = s.keypad ∧
    (op_7XNN x nn s).registers.getD 15 0 = s.registers.getD 15 0 ∧
    (∀ j, j ≠ x → (op_7XNN x nn s).registers.getD j 0 = s.registers.getD j 0) := by
  have hfr : ∀ j, j ≠ x → (op_7XNN x nn s).registers.getD j 0 = s.registers.getD j 0 := by
    intro j hj
    simp only [op_7XNN]
    split
    · rw [getD_set_ne _ _ _ _ _ (Ne.symm hj), getD_set_ne _ _ _ _ _ (Ne.symm hj)]
    · rw [getD_set_ne _ _ _ _ _ (Ne.symm hj)]
  exact ⟨rfl, rfl, rfl, rfl, rfl, rfl, rfl, rfl, hfr 15 (by omega), hfr⟩

/-- Witness for C10 at x = 3, nn = 255 on the base state. -/
theorem op_7XNN_frame_witness :
    (op_7XNN 3 255 baseState).graphic_memory = baseState.graphic_memory ∧
    (op_7XNN 3 255 baseState).registers.getD 15 0 = baseState.registers.getD 15 0 :=
  ⟨(op_7XNN_frame 3 255 baseState (by norm_num) (by norm_num)).2.2.2.2.2.2.1,
   (op_7XNN_frame 3 255 baseState (by norm_num) (by norm_num)).2.2.2.2.2.2.2.2.1⟩

/-! ### C9: the 4096-byte memory invariant -/

/-- C9 (counterexample): `op_FX55` with I = 4095 and x = 1 clips the
assigned slice, so the spliced-in two registers grow the memory to 4097
cells: opcode execution does not always preserve the length 4096. -/
theorem op_FX55_grows_memory :
    (op_FX55 1 c9State).memory.length = 4097 ∧
    ¬ ((op_FX55 1 c9State).memory.length = 4096) := by
  have hi : pyIdx c9State.address_i = 4095 := by
    have e : c9State.address_i = (4095 : ℚ) := rfl
    have e2 : (4095 : ℚ) = ((4095 : ℕ) : ℚ) := by norm_num
    rw [e, e2, pyIdx_natCast]
  have hm : (op_FX55 1 c9State).memory =
      pySliceAssign c9State.memory 4095 (4095 + 2) (c9State.registers.take 2) := by
    simp only [op_FX55, hi]
  have hlm : c9State.memory.length = 4096 := by
    have e : c9State.memory = List.replicate 4096 (0 : ℚ) := rfl
    rw [e, List.length_replicate]
  have hlr : (c9State.registers.take 2).length = 2 := by
    have e : c9State.registers = List.replicate 16 (0 : ℚ) := rfl
    rw [e, List.length_take, List.length_replicate]
    omega
  have h : (op_FX55 1 c9State).memory.length = 4097 := by
    rw [hm, pySliceAssign_length, hlm, hlr]
    omega
  exact ⟨h, by rw [h]; omega⟩

/-- C9 (amended): initialization and in-bounds ROM loading yield and
preserve a 4096-cell memory, and every instruction whose memory writes
stay in bounds (`memSafe`) preserves it; without those bounds the slice
assignments of `op_FX55` and `load` clip and change the length. -/
theorem memory_size_invariant :
    initState.memory.length = 4096 ∧
    (∀ (rom : List ℕ) (s : Chip8), s.memory.length = 4096 →
       rom.length ≤ 4096 - 0x200 → (load rom s).memory.length = 4096) ∧
    (∀ (ins : Instr) (rand : ℕ) (s s2 : Chip8), s.memory.length = 4096 →
       s.registers.length = 16 → memSafe ins s → exec ins rand s = some s2 →
       s2.memory.length = 4096) := by
  refine ⟨?_, ?_, ?_⟩
  · have e : initState.memory =
        pySliceAssign (List.replicate 4096 (0 : ℚ)) 0 fontset.length
          (fontset.map (Nat.cast : ℕ → ℚ)) := rfl
    rw [e, pySliceAssign_length, List.length_replicate, List.length_map]
    have hf : fontset.length = 80 := rfl
    rw [hf]
    omega
  · intro rom s h1 h2
    have e : (load rom s).memory =
        pySliceAssign s.memory 0x200 (0x200 + rom.length)
          (rom.map (Nat.cast : ℕ → ℚ)) := rfl
    rw [e, pySliceAssign_length, h1, List.length_map]
    omega
  · intro ins rand s s2 h1 h2 hsafe hexec
    cases ins <;> simp only [exec, Option.some.injEq] at hexec
    case op00EE =>
      unfold op_00EE at hexec
      split at hexec
      · rw [Option.some_inj] at hexec
        subst hexec
        exact h1
      · exact absurd hexec (by simp)
    all_goals subst hexec
    case op00E0 => exact h1
    case op1NNN nnn => exact h1
    case op2NNN nnn => exact h1
    case op3XNN x nn => unfold op_3XNN; split <;> exact h1
    case op4XNN x nn => unfold op_4XNN; split <;> exact h1
    case op5XY0 x y => unfold op_5XY0; split <;> exact h1
    case op6XNN x nn => exact h1
    case op7XNN x nn => exact h1
    case op8XY0 x y => exact h1
    case op8XY1 x y => exact h1
    case op8XY2 x y => exact h1
    case op8XY3 x y => exact h1
    case op8XY4 x y => exact h1
    case op8XY5 x y => exact h1
    case op8XY6 x y => exact h1
    case op8XY7 x y => exact h1
    case op8XYE x y => exact h1
    case op9XY0 x y => unfold op_9XY0; split <;> exact h1
    case opANNN nnn => exact h1
    case opBNNN nnn => exact h1
    case opCXNN x nn => exact h1
    case opDXYN x y n => exact h1
    case opEX9E x => simp only [op_EX9E]; split <;> exact h1
    case opEXA1 x => simp only [op_EXA1]; split <;> exact h1
    case opFX07 x => exact h1
    case opFX0A x => unfold op_FX0A; split <;> exact h1
    case opFX15 x => exact h1
    case opFX18 x => exact h1
    case opFX1E x => exact h1
    case opFX29 x => exact h1
    case opFX33 x =>
      simp only [op_FX33]
      rw [List.length_set, List.length_set, List.length_set]
      exact h1
    case opFX55 x =>
      obtain ⟨hx, hrange⟩ := hsafe
      simp only [op_FX55]
      rw [pySliceAssign_length, h1, List.length_take, h2]
      omega
    case opFX65 x => exact h1

/-- Witness for the amended C9 theorem: a no-op load and `op_ANNN` on the
base state keep the memory at 4096 cells. -/
theorem memory_size_invariant_witness :
    (load [] baseState).memory.length = 4096 ∧
    ∀ s2, exec (.opANNN 0x300) 0 baseState = some s2 → s2.memory.length = 4096 := by
  constructor
  · exact memory_size_invariant.2.1 [] baseState
      (by
        have e : baseState.memory = List.replicate 4096 (0 : ℚ) := rfl
        rw [e, List.length_replicate])
      (by norm_num)
  · intro s2 h
    exact memory_size_invariant.2.2 (.opANNN 0x300) 0 baseState s2
      (by
        have e : baseState.memory = List.replicate 4096 (0 : ℚ) := rfl
        rw [e, List.length_replicate])
      (by
        have e : baseState.registers = List.replicate 16 (0 : ℚ) := rfl
        rw [e, List.length_replicate])
      trivial h

/-! ### C8: FX55 / FX65 round-trip -/

/-- C8: with the copied range in memory, `op_FX55` stores V0..Vx at
memory[I..I+x+1); after arbitrarily replacing the register file,
`op_FX65` with the same I restores V0..Vx; neither changes I. -/
theorem fx55_fx65_roundtrip (x i : ℕ) (s : Chip8) (R2 : List ℚ)
    (hx : x < 16) (hreg : s.registers.length = 16)
    (hmem : s.memory.length = 4096)
    (hi : s.address_i = (i : ℚ)) (hrange : i + (x + 1) ≤ 4096) :
    ((op_FX65 x { op_FX55 x s with registers := R2 }).registers.take (x + 1) =
      s.registers.take (x + 1)) ∧
    (op_FX55 x s).address_i = s.address_i ∧
    (op_FX65 x { op_FX55 x s with registers := R2 }).address_i =
      ({ op_FX55 x s with registers := R2 } : Chip8).address_i := by
  have hpy : pyIdx s.address_i = i := by rw [hi, pyIdx_natCast]
  have hTl : (s.memory.take i).length = i := by rw [List.length_take]; omega
  have hRl : (s.registers.take (x + 1)).length = x + 1 := by
    rw [List.length_take]; omega
  have hm : (op_FX55 x s).memory =
      s.memory.take i ++
        (s.registers.take (x + 1) ++ s.memory.drop (i + (x + 1))) := by
    simp only [op_FX55, hpy, pySliceAssign]
    rw [Nat.max_eq_right (by omega : i ≤ i + (x + 1)), List.append_assoc]
  have hs2m : ({ op_FX55 x s with registers := R2 } : Chip8).memory =
      (op_FX55 x s).memory := rfl
  have hs2i : ({ op_FX55 x s with registers := R2 } : Chip8).address_i =
      s.address_i := rfl
  have hslice :
      pySlice ({ op_FX55 x s with registers := R2 } : Chip8).memory i (i + (x + 1)) =
        s.registers.take (x + 1) := by
    rw [hs2m, hm]
    unfold pySlice
    rw [List.drop_left' hTl]
    have e : i + (x + 1) - i = x + 1 := by omega
    rw [e, List.take_left' hRl]
  have hreg3 : (op_FX65 x { op_FX55 x s with registers := R2 }).registers =
      s.registers.take (x + 1) ++ R2.drop (x + 1) := by
    simp only [op_FX65]
    rw [show pyIdx ({ op_FX55 x s with registers := R2 } : Chip8).address_i = i from by
      rw [hs2i, hpy]]
    rw [hslice]
    unfold pySliceAssign
    rw [List.take_zero, Nat.max_eq_right (Nat.zero_le _), List.nil_append]
  refine ⟨?_, rfl, rfl⟩
  rw [hreg3, List.take_left' hRl]

/-- Witness for C8: the spec example V0..V4 = 1,2,3,4,5 written at
I = 768, registers cleared, and read back. -/
theorem fx55_fx65_roundtrip_witness :
    ((op_FX65 4 { op_FX55 4 { baseState with
        registers := (((((List.replicate 16 (0 : ℚ)).set 0 1).set 1 2).set 2 3).set 3 4).set 4 5,
        address_i := 768 } with
          registers := List.replicate 16 (0 : ℚ) }).registers.take 5 =
      ({ baseState with
        registers := (((((List.replicate 16 (0 : ℚ)).set 0 1).set 1 2).set 2 3).set 3 4).set 4 5,
        address_i := 768 } : Chip8).registers.take 5) ∧
    (op_FX55 4 { baseState with
        registers := (((((List.replicate 16 (0 : ℚ)).set 0 1).set 1 2).set 2 3).set 3 4).set 4 5,
        address_i := 768 }).address_i =
      ({ baseState with
        registers := (((((List.replicate 16 (0 : ℚ)).set 0 1).set 1 2).set 2 3).set 3 4).set 4 5,
        address_i := 768 } : Chip8).address_i ∧
    (op_FX65 4 { op_FX55 4 { baseState with
        registers := (((((List.replicate 16 (0 : ℚ)).set 0 1).set 1 2).set 2 3).set 3 4).set 4 5,
        address_i := 768 } with
          registers := List.replicate 16 (0 : ℚ) }).address_i =
      ({ op_FX55 4 { baseState with
        registers := (((((List.replicate 16 (0 : ℚ)).set 0 1).set 1 2).set 2 3).set 3 4).set 4 5,
        address_i := 768 } with
          registers := List.replicate 16 (0 : ℚ) } : Chip8).address_i := by
  refine fx55_fx65_roundtrip 4 768 _ _ (by norm_num) ?_ ?_ ?_ (by norm_num)
  · rw [show ({ baseState with
        registers := (((((List.replicate 16 (0 : ℚ)).set 0 1).set 1 2).set 2 3).set 3 4).set 4 5,
        address_i := 768 } : Chip8).registers =
        (((((List.replicate 16 (0 : ℚ)).set 0 1).set 1 2).set 2 3).set 3 4).set 4 5 from rfl]
    rw [List.length_set, List.length_set, List.length_set, List.length_set,
      List.length_set, List.length_replicate]
  · rw [show ({ baseState with
        registers := (((((List.replicate 16 (0 : ℚ)).set 0 1).set 1 2).set 2 3).set 3 4).set 4 5,
        address_i := 768 } : Chip8).memory = List.replicate 4096 (0 : ℚ) from rfl]
    rw [List.length_replicate]
  · rw [show ({ baseState with
        registers := (((((List.replicate 16 (0 : ℚ)).set 0 1).set 1 2).set 2 3).set 3 4).set 4 5,
        address_i := 768 } : Chip8).address_i = (768 : ℚ) from rfl]
    norm_num

/-! ### C4: the opcode table is unambiguous -/

theorem matchesNib_replicate_none (w : ℕ) (os : List (Option ℕ)) (ds : List ℕ)
    (h : w ≤ ds.length) :
    matchesNib (List.replicate w none ++ os) ds = matchesNib os (ds.drop w) := by
  induction w generalizing ds with
  | zero => simp
  | succ k ih =>
    cases ds with
    | nil => simp at h
    | cons d ds =>
      simp only [List.replicate_succ, List.cons_append, List.drop_succ_cons]
      rw [show matchesNib (none :: (List.replicate k none ++ os)) (d :: ds) =
          matchesNib (List.replicate k none ++ os) ds from by
        simp [matchesNib]]
      exact ih ds (by simpa using h)

theorem matchPat_isSome_eq (ps : List PatItem) (ds : List ℕ)
    (h : (nibConstraints ps).length = ds.length) :
    (matchPat ps ds).isSome = matchesNib (nibConstraints ps) ds := by
  induction ps generalizing ds with
  | nil =>
    have hds : ds = [] := by
      have : ds.length = 0 := by simpa [nibConstraints] using h.symm
      exact List.length_eq_zero.mp this
    subst hds
    rfl
  | cons p ps ih =>
    cases p with
    | lit v =>
      have hnc : nibConstraints (.lit v :: ps) = some v :: nibConstraints ps := by
        simp [nibConstraints]
      cases ds with
      | nil =>
        rw [hnc] at h
        simp at h
      | cons d ds =>
        rw [hnc] at h ⊢
        simp only [List.length_cons, Nat.add_right_cancel_iff] at h
        by_cases hdv : d = v
        · rw [show matchPat (.lit v :: ps) (d :: ds) = matchPat ps ds from by
            simp [matchPat, hdv]]
          rw [show matchesNib (some v :: nibConstraints ps) (d :: ds) =
              matchesNib (nibConstraints ps) ds from by
            simp [matchesNib, hdv]]
          exact ih ds h
        · rw [show matchPat (.lit v :: ps) (d :: ds) = none from by
            simp [matchPat, hdv]]
          rw [show matchesNib (some v :: nibConstraints ps) (d :: ds) = false from by
            simp [matchesNib]
            omega]
          rfl
    | wild w =>
      have hnc : nibConstraints (.wild w :: ps) =
          List.replicate w none ++ nibConstraints ps := by
        simp [nibConstraints]
      rw [hnc] at h ⊢
      simp only [List.length_append, List.length_replicate] at h
      rw [matchesNib_replicate_none w _ ds (by omega)]
      rw [show matchPat (.wild w :: ps) ds =
          (matchPat ps (ds.drop w)).map (groupVal (ds.take w) :: ·) from rfl]
      rw [show ((matchPat ps (ds.drop w)).map (groupVal (ds.take w) :: ·)).isSome =
          (matchPat ps (ds.drop w)).isSome from by
        cases matchPat ps (ds.drop w) <;> rfl]
      exact ih (ds.drop w) (by rw [List.length_drop]; omega)

theorem matchesNib_agree (os : List (Option ℕ)) (ds : List ℕ)
    (h : matchesNib os ds = true) (j v : ℕ) (hj : os.getD j none = some v) :
    ds.getD j 0 = v := by
  induction os generalizing ds j with
  | nil => simp at hj
  | cons o os ih =>
    cases ds with
    | nil => simp [matchesNib] at h
    | cons d ds =>
      cases j with
      | zero =>
        simp only [List.getD_cons_zero] at hj ⊢
        rw [hj] at h
        simp only [matchesNib, Bool.and_eq_true, beq_iff_eq] at h
        exact h.1.symm
      | succ j =>
        simp only [List.getD_cons_succ] at hj ⊢
        have h2 : matchesNib os ds = true := by
          simp only [matchesNib, Bool.and_eq_true] at h
          exact h.2
        exact ih ds h2 j hj

theorem sepAt_not_both (p q : List (Option ℕ)) (ds : List ℕ)
    (hsep : sepAt p q = true) :
    ¬ (matchesNib p ds = true ∧ matchesNib q ds = true) := by
  rintro ⟨h1, h2⟩
  unfold sepAt at hsep
  rw [List.any_eq_true] at hsep
  obtain ⟨j, -, hj⟩ := hsep
  cases hp : p.getD j none with
  | none =>
    rw [hp] at hj
    simp at hj
  | some a =>
    cases hq : q.getD j none with
    | none =>
      rw [hp, hq] at hj
      simp at hj
    | some b =>
      rw [hp, hq] at hj
      simp only [bne_iff_ne, ne_eq] at hj
      have e1 := matchesNib_agree p ds h1 j a hp
      have e2 := matchesNib_agree q ds h2 j b hq
      exact hj (by rw [← e1, ← e2])

theorem filter_length_le_one_of_pairwise {α : Type _} (l : List α) (p : α → Bool)
    (h : l.Pairwise fun a b => ¬ (p a = true ∧ p b = true)) :
    (l.filter p).length ≤ 1 := by
  induction l with
  | nil => simp
  | cons a l ih =>
    rw [List.pairwise_cons] at h
    obtain ⟨ha, hl⟩ := h
    by_cases hpa : p a = true
    · rw [List.filter_cons_of_pos hpa]
      have hnil : l.filter p = [] := by
        rw [List.filter_eq_nil_iff]
        intro b hb hpb
        exact ha b hb ⟨hpa, hpb⟩
      rw [hnil]
      simp
    · rw [List.filter_cons_of_neg (by simpa using hpa)]
      exact ih hl

/-- C4: for every 16-bit instruction, at most one entry of the opcode
table matches it, so the decoded entry cannot depend on the iteration
order of the table. -/
theorem opTable_unambiguous (op : ℕ) (hop : op < 65536) :
    (opTable.filter fun e => entryMatches e op).length ≤ 1 := by
  apply filter_length_le_one_of_pairwise
  have hw : ∀ e ∈ opTable, (nibConstraints e.1).length = 4 := by decide
  have hsep : opTable.Pairwise fun e1 e2 =>
      sepAt (nibConstraints e1.1) (nibConstraints e2.1) = true := by decide
  refine List.Pairwise.imp_of_mem ?_ hsep
  intro e1 e2 h1 h2 hs
  rintro ⟨m1, m2⟩
  rw [entryMatches, matchPat_isSome_eq _ _ (by rw [hw e1 h1]; rfl)] at m1
  rw [entryMatches, matchPat_isSome_eq _ _ (by rw [hw e2 h2]; rfl)] at m2
  exact sepAt_not_both _ _ _ hs ⟨m1, m2⟩

/-- Witness for C4 at the concrete instruction 0x1234. -/
theorem opTable_unambiguous_witness :
    (0x1234 : ℕ) < 65536 ∧
    (opTable.filter fun e => entryMatches e 0x1234).length ≤ 1 :=
  ⟨by norm_num, opTable_unambiguous 0x1234 (by norm_num)⟩

/-! ### C5: unmatched instructions are reported and executed as no-ops -/

/-- General evaluation of `getD` on a replicated list. -/
theorem getD_replicate (n j : ℕ) (a d : α) :
    (List.replicate n a).getD j d = if j < n then a else d := by
  rw [List.getD_eq_getElem?_getD, List.getElem?_replicate]
  split <;> rfl

/-- C5: when the fetched instruction matches no opcode pattern, the cycle
completes (`some`, execution continues) with the decode failure applied
as a no-op: PC has advanced by 2 from the fetch, the timers have been
decremented, and nothing else changed. -/
theorem cycle_unmatched_noop (rand : ℕ) (s : Chip8)
    (hdec : decode (fetchOpcode s) = none) :
    cycle rand s =
      some (decTimers { s with program_counter := s.program_counter + 2 }) := by
  simp only [fetchOpcode, fetch] at hdec
  simp only [cycle, fetch]
  rw [hdec]

/-- Witness for C5: the all-zero base state fetches instruction 0x0000,
which no pattern matches. -/
theorem cycle_unmatched_noop_witness :
    decode (fetchOpcode baseState) = none ∧
    cycle 0 baseState =
      some (decTimers { baseState with
        program_counter := baseState.program_counter + 2 }) := by
  have hb : ∀ j : ℕ, baseState.memory.getD j 0 = (0 : ℚ) := by
    intro j
    rw [show baseState.memory = List.replicate 4096 (0 : ℚ) from rfl, getD_replicate]
    split <;> rfl
  have hz : pyIdx (0 : ℚ) = 0 := by
    rw [show (0 : ℚ) = ((0 : ℕ) : ℚ) from by norm_num, pyIdx_natCast]
  have hf : fetchOpcode baseState = 0 := by
    simp only [fetchOpcode, fetch, hb, hz]
    decide
  have hd : decode (fetchOpcode baseState) = none := by
    rw [hf]
    decide
  exact ⟨hd, cycle_unmatched_noop 0 baseState hd⟩

/-! ### C7: FX0A wait-for-keypress -/

theorem findIdx?_none_of_all_zero (l : List ℕ)
    (h : ∀ j, j < l.length → l.getD j 0 = 0) :
    l.findIdx? (fun k => k != 0) = none := by
  rw [List.findIdx?_eq_none_iff]
  intro k hk
  obtain ⟨j, hj, he⟩ := List.getElem_of_mem hk
  have e : l.getD j 0 = k := by
    rw [List.getD_eq_getElem?_getD, List.getElem?_eq_getElem hj, he]
    rfl
  have h0 := h j hj
  rw [e] at h0
  simp [h0]

theorem findIdx?_some_of_first (l : List ℕ) (i : ℕ) (hi : i < l.length)
    (hlow : ∀ j, j < i → l.getD j 0 = 0) (hit : l.getD i 0 ≠ 0) :
    l.findIdx? (fun k => k != 0) = some i := by
  rw [List.findIdx?_eq_some_iff_getElem]
  refine ⟨hi, ?_, ?_⟩
  · have e : l.getD i 0 = l[i] := by
      rw [List.getD_eq_getElem?_getD, List.getElem?_eq_getElem hi]
      rfl
    rw [e] at hit
    simpa using hit
  · intro j hj
    have hjl : j < l.length := Nat.lt_trans hj hi
    have e : l.getD j 0 = l[j] := by
      rw [List.getD_eq_getElem?_getD, List.getElem?_eq_getElem hjl]
      rfl
    have h0 := hlow j hj
    rw [e] at h0
    simp [h0]

/-- C7: a cycle that fetches FX0A with no key pressed produces exactly the
timer-decremented original state (PC net unchanged because the fetch
advance is rewound, registers untouched, so the instruction is refetched);
once a key is pressed, the lowest pressed index is stored in Vx and PC
keeps its normal advance by 2. -/
theorem cycle_FX0A (rand x p : ℕ) (s : Chip8)
    (hx : x < 16)
    (hpc : s.program_counter = (p : ℚ))
    (hhigh : s.memory.getD p 0 = ((240 + x : ℕ) : ℚ))
    (hlow : s.memory.getD (p + 1) 0 = ((10 : ℕ) : ℚ))
    (hklen : s.keypad.length = 16) :
    ((∀ j, j < 16 → s.keypad.getD j 0 = 0) →
       cycle rand s = some (decTimers s)) ∧
    (∀ i, (∀ j, j < i → s.keypad.getD j 0 = 0) → i < 16 →
       s.keypad.getD i 0 ≠ 0 →
       cycle rand s = some (decTimers
         { s with program_counter := s.program_counter + 2,
                  registers := s.registers.set x (i : ℚ) })) := by
  have hfetch : (fetch s).1 = ((240 + x) <<< 8) ||| 10 := by
    simp only [fetch, hpc, pyIdx_natCast, hhigh, hlow]
  have hdecode : decode (((240 + x) <<< 8) ||| 10) = some (.opFX0A x) := by
    have hall : ∀ y, y < 16 →
        decode (((240 + y) <<< 8) ||| 10) = some (.opFX0A y) := by decide
    exact hall x hx
  have hcyc : cycle rand s =
      (exec (.opFX0A x) rand
        { s with program_counter := s.program_counter + 2 }).map decTimers := by
    simp only [cycle]
    rw [hfetch, hdecode]
    rfl
  constructor
  · intro hall
    have hnone : s.keypad.findIdx? (fun k => k != 0) = none :=
      findIdx?_none_of_all_zero _ (fun j hj => hall j (by omega))
    rw [hcyc]
    rw [show exec (.opFX0A x) rand
        { s with program_counter := s.program_counter + 2 } =
        some (op_FX0A x { s with program_counter := s.program_counter + 2 })
        from rfl]
    have hop : op_FX0A x { s with program_counter := s.program_counter + 2 } = s := by
      unfold op_FX0A
      rw [show ({ s with program_counter := s.program_counter + 2 } : Chip8).keypad =
          s.keypad from rfl]
      rw [hnone]
      show ({ s with program_counter := s.program_counter + 2 - 2 } : Chip8) = s
      have harith : s.program_counter + 2 - 2 = s.program_counter := by ring
      rw [harith]
    rw [hop]
    rfl
  · intro i hlow2 hi hit
    have hfind : s.keypad.findIdx? (fun k => k != 0) = some i :=
      findIdx?_some_of_first _ i (by omega) hlow2 hit
    rw [hcyc]
    rw [show exec (.opFX0A x) rand
        { s with program_counter := s.program_counter + 2 } =
        some (op_FX0A x { s with program_counter := s.program_counter + 2 })
        from rfl]
    have hop : op_FX0A x { s with program_counter := s.program_counter + 2 } =
        { s with program_counter := s.program_counter + 2,
                 registers := s.registers.set x (i : ℚ) } := by
      unfold op_FX0A
      rw [show ({ s with program_counter := s.program_counter + 2 } : Chip8).keypad =
          s.keypad from rfl]
      rw [hfind]
    rw [hop]
    rfl

/-- Witness for C7: memory holds the instruction F30A at PC = 0x200 and no
key is pressed, so the cycle only decrements the timers. -/
theorem cycle_FX0A_witness :
    cycle 0 { baseState with
      memory := ((List.replicate 4096 (0 : ℚ)).set 512 ((243 : ℕ) : ℚ)).set 513
        ((10 : ℕ) : ℚ) } =
    some (decTimers { baseState with
      memory := ((List.replicate 4096 (0 : ℚ)).set 512 ((243 : ℕ) : ℚ)).set 513
        ((10 : ℕ) : ℚ) }) := by
  refine (cycle_FX0A 0 3 512 _ (by norm_num) ?_ ?_ ?_ ?_).1 ?_
  · rw [show ({ baseState with
      memory := ((List.replicate 4096 (0 : ℚ)).set 512 ((243 : ℕ) : ℚ)).set 513
        ((10 : ℕ) : ℚ) } : Chip8).program_counter = (512 : ℚ) from rfl]
    norm_num
  · rw [show ({ baseState with
      memory := ((List.replicate 4096 (0 : ℚ)).set 512 ((243 : ℕ) : ℚ)).set 513
        ((10 : ℕ) : ℚ) } : Chip8).memory =
      ((List.replicate 4096 (0 : ℚ)).set 512 ((243 : ℕ) : ℚ)).set 513
        ((10 : ℕ) : ℚ) from rfl]
    rw [getD_set_ne _ _ _ _ _ (by omega),
      getD_set_self _ _ _ _ (by rw [List.length_replicate]; omega)]
  · rw [show ({ baseState with
      memory := ((List.replicate 4096 (0 : ℚ)).set 512 ((243 : ℕ) : ℚ)).set 513
        ((10 : ℕ) : ℚ) } : Chip8).memory =
      ((List.replicate 4096 (0 : ℚ)).set 512 ((243 : ℕ) : ℚ)).set 513
        ((10 : ℕ) : ℚ) from rfl]
    rw [getD_set_self _ _ _ _ (by rw [List.length_set, List.length_replicate]; omega)]
  · rw [show ({ baseState with
      memory := ((List.replicate 4096 (0 : ℚ)).set 512 ((243 : ℕ) : ℚ)).set 513
        ((10 : ℕ) : ℚ) } : Chip8).keypad = List.replicate 16 0 from rfl]
    rw [List.length_replicate]
  · intro j hj
    rw [show ({ baseState with
      memory := ((List.replicate 4096 (0 : ℚ)).set 512 ((243 : ℕ) : ℚ)).set 513
        ((10 : ℕ) : ℚ) } : Chip8).keypad = List.replicate 16 0 from rfl]
    rw [getD_replicate, if_pos hj]

/-! ### C2: DXYN sprite drawing -/

theorem spriteBit_eq_natCast (b c : ℕ) :
    spriteBit ((b : ℕ) : ℚ) c = spriteBitN b c := by
  unfold spriteBit spriteBitN
  rw [pyIdx_natCast]

theorem spriteBit_le_one (q : ℚ) (c : ℕ) : spriteBit q c ≤ 1 := by
  unfold spriteBit
  exact Nat.and_le_right

theorem xor_le_one {a b : ℕ} (ha : a ≤ 1) (hb : b ≤ 1) : a ^^^ b ≤ 1 := by
  interval_cases a <;> interval_cases b <;> decide

theorem getCell_setCell_self (g : List (List ℕ)) (u v b : ℕ)
    (hu : u < g.length) (hv : v < (g.getD u []).length) :
    getCell (setCell g u v b) u v = b := by
  unfold getCell setCell
  rw [getD_set_self _ _ _ _ hu, getD_set_self _ _ _ _ hv]

theorem getCell_setCell_ne (g : List (List ℕ)) (u v b u2 v2 : ℕ)
    (hne : ¬ (u = u2 ∧ v = v2)) :
    getCell (setCell g u v b) u2 v2 = getCell g u2 v2 := by
  unfold getCell setCell
  by_cases hu : u = u2
  · subst hu
    have hv : v ≠ v2 := fun h => hne ⟨rfl, h⟩
    by_cases hl : u < g.length
    · rw [getD_set_self _ _ _ _ hl, getD_set_ne _ _ _ _ _ hv]
    · rw [List.set_eq_of_length_le (by omega)]
  · rw [getD_set_ne _ _ _ _ _ hu]

theorem setCell_length (g : List (List ℕ)) (u v b : ℕ) :
    (setCell g u v b).length = g.length := by
  unfold setCell
  exact List.length_set g u _

theorem setCell_col_length (g : List (List ℕ)) (u v b j : ℕ) :
    ((setCell g u v b).getD j []).length = (g.getD j []).length := by
  unfold setCell
  by_cases hj : u = j
  · subst hj
    by_cases hl : u < g.length
    · rw [getD_set_self _ _ _ _ hl, List.length_set]
    · rw [List.set_eq_of_length_le (by omega)]
  · rw [getD_set_ne _ _ _ _ _ hj]

theorem getCell_setCell_le_one (g : List (List ℕ)) (u v b u2 v2 : ℕ)
    (hb : b ≤ 1) (hbits : ∀ a a2, getCell g a a2 ≤ 1) :
    getCell (setCell g u v b) u2 v2 ≤ 1 := by
  by_cases h : u = u2 ∧ v = v2
  · obtain ⟨rfl, rfl⟩ := h
    by_cases hl : u < g.length
    · by_cases hv : v < (g.getD u []).length
      · rw [getCell_setCell_self g u v b hl hv]
        exact hb
      · unfold getCell setCell
        rw [getD_set_self _ _ _ _ hl, List.set_eq_of_length_le (by omega)]
        exact hbits u v
    · unfold getCell setCell
      rw [List.set_eq_of_length_le (by omega)]
      exact hbits u v
  · rw [getCell_setCell_ne g u v b u2 v2 h]
    exact hbits u2 v2

/-- Characterization of the inner column loop of the draw opcode: over a
duplicate-free list of columns, each in-grid pixel of the sprite row is
XORed once, out-of-grid pixels are skipped, and VF is set to 1 exactly
when some in-grid write results in a set cell. -/
theorem drawCols_spec (vxN vyN ri : ℕ) (rowBits : ℚ) :
    ∀ (cs : List ℕ) (g : List (List ℕ)) (regs : List ℚ),
      cs.Nodup → g.length = 64 →
      (∀ j, j < 64 → (g.getD j []).length = 32) →
      (∀ a a2, getCell g a a2 ≤ 1) →
      (drawCols (vxN : ℚ) (vyN : ℚ) rowBits ri cs (g, regs)).1.length = 64 ∧
      (∀ j, j < 64 →
        (((drawCols (vxN : ℚ) (vyN : ℚ) rowBits ri cs (g, regs)).1.getD j []).length = 32)) ∧
      (∀ a a2, getCell (drawCols (vxN : ℚ) (vyN : ℚ) rowBits ri cs (g, regs)).1 a a2 ≤ 1) ∧
      (∀ u v2, getCell (drawCols (vxN : ℚ) (vyN : ℚ) rowBits ri cs (g, regs)).1 u v2 =
        if u < 64 ∧ v2 = vyN + ri ∧ vyN + ri < 32 ∧ (∃ c2, c2 ∈ cs ∧ u = vxN + c2)
        then getCell g u v2 ^^^ spriteBit rowBits (u - vxN)
        else getCell g u v2) ∧
      ((drawCols (vxN : ℚ) (vyN : ℚ) rowBits ri cs (g, regs)).2 =
        if ∃ c2, c2 ∈ cs ∧ vxN + c2 < 64 ∧ vyN + ri < 32 ∧
            getCell g (vxN + c2) (vyN + ri) ^^^ spriteBit rowBits c2 = 1
        then regs.set 15 1 else regs) := by
  intro cs
  induction cs with
  | nil =>
    intro g regs hnd hg64 hg32 hbits
    refine ⟨hg64, hg32, hbits, ?_, ?_⟩
    · intro u v2
      rw [if_neg]
      · rfl
      · rintro ⟨-, -, -, c2, hc2, -⟩
        exact absurd hc2 (List.not_mem_nil c2)
    · rw [if_neg]
      · rfl
      · rintro ⟨c2, hc2, -⟩
        exact absurd hc2 (List.not_mem_nil c2)
  | cons c cs ih =>
    intro g regs hnd hg64 hg32 hbits
    rw [List.nodup_cons] at hnd
    obtain ⟨hcnot, hnd2⟩ := hnd
    have hxcast : ((vxN : ℚ) + (c : ℚ)) = ((vxN + c : ℕ) : ℚ) := by push_cast; ring
    have hycast : ((vyN : ℚ) + (ri : ℚ)) = ((vyN + ri : ℕ) : ℚ) := by push_cast; ring
    have hstep : drawCols (vxN : ℚ) (vyN : ℚ) rowBits ri (c :: cs) (g, regs) =
        if 64 ≤ (vxN : ℚ) + (c : ℚ) ∨ 32 ≤ (vyN : ℚ) + (ri : ℚ)
        then drawCols (vxN : ℚ) (vyN : ℚ) rowBits ri cs (g, regs)
        else drawCols (vxN : ℚ) (vyN : ℚ) rowBits ri cs
          (drawPixel (pyIdx ((vxN : ℚ) + (c : ℚ))) (pyIdx ((vyN : ℚ) + (ri : ℚ)))
            (spriteBit rowBits c) g regs) := rfl
    by_cases hclip : 64 ≤ vxN + c ∨ 32 ≤ vyN + ri
    · -- the pixel is clipped: the step is skipped entirely
      have e : drawCols (vxN : ℚ) (vyN : ℚ) rowBits ri (c :: cs) (g, regs) =
          drawCols (vxN : ℚ) (vyN : ℚ) rowBits ri cs (g, regs) := by
        rw [hstep, if_pos]
        rcases hclip with h | h
        · left
          rw [hxcast]
          exact_mod_cast h
        · right
          rw [hycast]
          exact_mod_cast h
      rw [e]
      obtain ⟨ihA, ihB, ihC, ihD, ihE⟩ := ih g regs hnd2 hg64 hg32 hbits
      refine ⟨ihA, ihB, ihC, ?_, ?_⟩
      · intro u v2
        rw [ihD u v2]
        by_cases hcond : u < 64 ∧ v2 = vyN + ri ∧ vyN + ri < 32 ∧
            ∃ c2, c2 ∈ cs ∧ u = vxN + c2
        · rw [if_pos hcond]
          obtain ⟨h64, hveq, h32, c2, hc2, he⟩ := hcond
          rw [if_pos ⟨h64, hveq, h32, c2, List.mem_cons_of_mem c hc2, he⟩]
        · rw [if_neg hcond, if_neg]
          rintro ⟨h64, hveq, h32, c2, hc2, he⟩
          rcases List.mem_cons.mp hc2 with rfl | hmem
          · subst he
            omega
          · exact hcond ⟨h64, hveq, h32, c2, hmem, he⟩
      · rw [ihE]
        by_cases h2 : ∃ c2, c2 ∈ cs ∧ vxN + c2 < 64 ∧ vyN + ri < 32 ∧
            getCell g (vxN + c2) (vyN + ri) ^^^ spriteBit rowBits c2 = 1
        · rw [if_pos h2]
          obtain ⟨c2, hc2, hb1, hb2, hval⟩ := h2
          rw [if_pos ⟨c2, List.mem_cons_of_mem c hc2, hb1, hb2, hval⟩]
        · rw [if_neg h2, if_neg]
          rintro ⟨c2, hc2, hb1, hb2, hval⟩
          rcases List.mem_cons.mp hc2 with rfl | hmem
          · omega
          · exact h2 ⟨c2, hmem, hb1, hb2, hval⟩
    · -- the pixel is inside the grid: one XOR write happens
      have hult : vxN + c < 64 := by omega
      have hvlt : vyN + ri < 32 := by omega
      have e : drawCols (vxN : ℚ) (vyN : ℚ) rowBits ri (c :: cs) (g, regs) =
          drawCols (vxN : ℚ) (vyN : ℚ) rowBits ri cs
            (drawPixel (vxN + c) (vyN + ri) (spriteBit rowBits c) g regs) := by
        rw [hstep, if_neg, hxcast, hycast, pyIdx_natCast, pyIdx_natCast]
        rintro (h | h)
        · rw [hxcast] at h
          have : 64 ≤ vxN + c := by exact_mod_cast h
          omega
        · rw [hycast] at h
          have : 32 ≤ vyN + ri := by exact_mod_cast h
          omega
      have hcellval :
          getCell (setCell g (vxN + c) (vyN + ri)
            (getCell g (vxN + c) (vyN + ri) ^^^ spriteBit rowBits c)) (vxN + c) (vyN + ri) =
          getCell g (vxN + c) (vyN + ri) ^^^ spriteBit rowBits c :=
        getCell_setCell_self g _ _ _ (by omega) (by rw [hg32 _ hult]; omega)
      have hxle : getCell g (vxN + c) (vyN + ri) ^^^ spriteBit rowBits c ≤ 1 :=
        xor_le_one (hbits _ _) (spriteBit_le_one rowBits c)
      have hxeq : (getCell g (vxN + c) (vyN + ri) ^^^ spriteBit rowBits c ≠ 0) ↔
          (getCell g (vxN + c) (vyN + ri) ^^^ spriteBit rowBits c = 1) := by omega
      have hdp : drawPixel (vxN + c) (vyN + ri) (spriteBit rowBits c) g regs =
          (setCell g (vxN + c) (vyN + ri)
             (getCell g (vxN + c) (vyN + ri) ^^^ spriteBit rowBits c),
           if getCell g (vxN + c) (vyN + ri) ^^^ spriteBit rowBits c = 1
           then regs.set 15 1 else regs) := by
        unfold drawPixel
        simp only [hcellval, hxeq]
      rw [e, hdp]
      have hg1len : (setCell g (vxN + c) (vyN + ri)
          (getCell g (vxN + c) (vyN + ri) ^^^ spriteBit rowBits c)).length = 64 := by
        rw [setCell_length]
        exact hg64
      have hg1cols : ∀ j, j < 64 →
          ((setCell g (vxN + c) (vyN + ri)
            (getCell g (vxN + c) (vyN + ri) ^^^ spriteBit rowBits c)).getD j []).length = 32 := by
        intro j hj
        rw [setCell_col_length]
        exact hg32 j hj
      have hg1bits : ∀ a a2, getCell (setCell g (vxN + c) (vyN + ri)
          (getCell g (vxN + c) (vyN + ri) ^^^ spriteBit rowBits c)) a a2 ≤ 1 := by
        intro a a2
        exact getCell_setCell_le_one g _ _ _ a a2 hxle hbits
      obtain ⟨ihA, ihB, ihC, ihD, ihE⟩ := ih _ _ hnd2 hg1len hg1cols hg1bits
      refine ⟨ihA, ihB, ihC, ?_, ?_⟩
      · intro u v2
        rw [ihD u v2]
        by_cases hu0 : u = vxN + c ∧ v2 = vyN + ri
        · obtain ⟨hu, hv⟩ := hu0
          subst hu
          subst hv
          rw [if_neg, if_pos ⟨hult, rfl, hvlt, c, List.mem_cons_self c cs, rfl⟩,
            hcellval, Nat.add_sub_cancel_left]
          rintro ⟨-, -, -, c2, hc2, he⟩
          have hceq : c2 = c := by omega
          subst hceq
          exact hcnot hc2
        · rw [getCell_setCell_ne _ _ _ _ _ _ (fun h => hu0 ⟨h.1.symm, h.2.symm⟩)]
          by_cases hcond : u < 64 ∧ v2 = vyN + ri ∧ vyN + ri < 32 ∧
              ∃ c2, c2 ∈ cs ∧ u = vxN + c2
          · rw [if_pos hcond]
            obtain ⟨h64, hveq, h32, c2, hc2, he⟩ := hcond
            rw [if_pos ⟨h64, hveq, h32, c2, List.mem_cons_of_mem c hc2, he⟩]
          · rw [if_neg hcond, if_neg]
            rintro ⟨h64, hveq, h32, c2, hc2, he⟩
            rcases List.mem_cons.mp hc2 with rfl | hmem
            · exact hu0 ⟨he, hveq⟩
            · exact hcond ⟨h64, hveq, h32, c2, hmem, he⟩
      · rw [ihE]
        have hiff : (∃ c2, c2 ∈ cs ∧ vxN + c2 < 64 ∧ vyN + ri < 32 ∧
            getCell (setCell g (vxN + c) (vyN + ri)
              (getCell g (vxN + c) (vyN + ri) ^^^ spriteBit rowBits c))
              (vxN + c2) (vyN + ri) ^^^ spriteBit rowBits c2 = 1) ↔
            (∃ c2, c2 ∈ cs ∧ vxN + c2 < 64 ∧ vyN + ri < 32 ∧
              getCell g (vxN + c2) (vyN + ri) ^^^ spriteBit rowBits c2 = 1) := by
          constructor <;> rintro ⟨c2, hc2, hb1, hb2, hval⟩ <;>
            refine ⟨c2, hc2, hb1, hb2, ?_⟩
          · rwa [getCell_setCell_ne _ _ _ _ _ _ (by
              rintro ⟨heq, -⟩
              have hceq : c2 = c := by omega
              subst hceq
              exact hcnot hc2)] at hval
          · rwa [getCell_setCell_ne _ _ _ _ _ _ (by
              rintro ⟨heq, -⟩
              have hceq : c2 = c := by omega
              subst hceq
              exact hcnot hc2)]
        simp only [hiff]
        by_cases h1 : getCell g (vxN + c) (vyN + ri) ^^^ spriteBit rowBits c = 1
        · rw [if_pos h1]
          by_cases h2 : ∃ c2, c2 ∈ cs ∧ vxN + c2 < 64 ∧ vyN + ri < 32 ∧
              getCell g (vxN + c2) (vyN + ri) ^^^ spriteBit rowBits c2 = 1
          · rw [if_pos h2, List.set_set,
              if_pos ⟨c, List.mem_cons_self c cs, hult, hvlt, h1⟩]
          · rw [if_neg h2, if_pos ⟨c, List.mem_cons_self c cs, hult, hvlt, h1⟩]
        · rw [if_neg h1]
          by_cases h2 : ∃ c2, c2 ∈ cs ∧ vxN + c2 < 64 ∧ vyN + ri < 32 ∧
              getCell g (vxN + c2) (vyN + ri) ^^^ spriteBit rowBits c2 = 1
          · rw [if_pos h2]
            obtain ⟨c2, hc2, hb1, hb2, hval⟩ := h2
            rw [if_pos ⟨c2, List.mem_cons_of_mem c hc2, hb1, hb2, hval⟩]
          · rw [if_neg h2, if_neg]
            rintro ⟨c2, hc2, hb1, hb2, hval⟩
            rcases List.mem_cons.mp hc2 with rfl | hmem
            · exact h1 hval
            · exact h2 ⟨c2, hmem, hb1, hb2, hval⟩

/-- Characterization of the row loop of the draw opcode: the sprite rows
are XORed into consecutive framebuffer rows starting at `vyN + ri`, cells
outside the grid or outside the sprite are unchanged, and VF is set to 1
exactly when some in-grid write of some row results in a set cell. -/
theorem drawRows_spec (vxN vyN : ℕ) :
    ∀ (bs : List ℚ) (ri : ℕ) (g : List (List ℕ)) (regs : List ℚ),
      g.length = 64 →
      (∀ j, j < 64 → (g.getD j []).length = 32) →
      (∀ a a2, getCell g a a2 ≤ 1) →
      (drawRows (vxN : ℚ) (vyN : ℚ) bs ri (g, regs)).1.length = 64 ∧
      (∀ j, j < 64 →
        (((drawRows (vxN : ℚ) (vyN : ℚ) bs ri (g, regs)).1.getD j []).length = 32)) ∧
      (∀ a a2, getCell (drawRows (vxN : ℚ) (vyN : ℚ) bs ri (g, regs)).1 a a2 ≤ 1) ∧
      (∀ u v2, getCell (drawRows (vxN : ℚ) (vyN : ℚ) bs ri (g, regs)).1 u v2 =
        if u < 64 ∧ v2 < 32 ∧ vxN ≤ u ∧ u < vxN + 8 ∧
            vyN + ri ≤ v2 ∧ v2 < vyN + ri + bs.length
        then getCell g u v2 ^^^ spriteBit (bs.getD (v2 - (vyN + ri)) 0) (u - vxN)
        else getCell g u v2) ∧
      ((∃ r, r < bs.length ∧ ∃ c2, c2 < 8 ∧ vxN + c2 < 64 ∧ vyN + ri + r < 32 ∧
          getCell g (vxN + c2) (vyN + ri + r) ^^^ spriteBit (bs.getD r 0) c2 = 1) →
        (drawRows (vxN : ℚ) (vyN : ℚ) bs ri (g, regs)).2 = regs.set 15 1) ∧
      (¬ (∃ r, r < bs.length ∧ ∃ c2, c2 < 8 ∧ vxN + c2 < 64 ∧ vyN + ri + r < 32 ∧
          getCell g (vxN + c2) (vyN + ri + r) ^^^ spriteBit (bs.getD r 0) c2 = 1) →
        (drawRows (vxN : ℚ) (vyN : ℚ) bs ri (g, regs)).2 = regs) := by
  intro bs
  induction bs with
  | nil =>
    intro ri g regs hg64 hg32 hbits
    refine ⟨hg64, hg32, hbits, ?_, ?_, ?_⟩
    · intro u v2
      rw [if_neg]
      · rfl
      · rintro ⟨-, -, -, -, h5, h6⟩
        simp only [List.length_nil] at h6
        omega
    · rintro ⟨r, hr, -⟩
      simp only [List.length_nil] at hr
      omega
    · intro _
      rfl
  | cons b bs ih =>
    intro ri g regs hg64 hg32 hbits
    obtain ⟨cA, cB, cC, cD, cE⟩ :=
      drawCols_spec vxN vyN ri b (List.range 8) g regs (List.nodup_range 8)
        hg64 hg32 hbits
    have hstep : drawRows (vxN : ℚ) (vyN : ℚ) (b :: bs) ri (g, regs) =
        drawRows (vxN : ℚ) (vyN : ℚ) bs (ri + 1)
          ((drawCols (vxN : ℚ) (vyN : ℚ) b ri (List.range 8) (g, regs)).1,
           (drawCols (vxN : ℚ) (vyN : ℚ) b ri (List.range 8) (g, regs)).2) := rfl
    rw [hstep]
    obtain ⟨rA, rB, rC, rD, rEpos, rEneg⟩ := ih (ri + 1) _ _ cA cB cC
    refine ⟨rA, rB, rC, ?_, ?_, ?_⟩
    · intro u v2
      rw [rD u v2, cD u v2]
      by_cases hB : u < 64 ∧ v2 = vyN + ri ∧ vyN + ri < 32 ∧
          ∃ c2, c2 ∈ List.range 8 ∧ u = vxN + c2
      · obtain ⟨h64, hveq, h32, c2, hc2, he⟩ := hB
        have hc2lt := List.mem_range.mp hc2
        rw [if_neg (by rintro ⟨-, -, -, -, h5, -⟩; omega)]
        rw [if_pos ⟨h64, hveq, h32, c2, hc2, he⟩]
        rw [if_pos ⟨h64, by omega, by omega, by omega, by omega,
          by rw [List.length_cons]; omega⟩]
        rw [show v2 - (vyN + ri) = 0 from by omega, List.getD_cons_zero]
      · rw [if_neg hB]
        by_cases hA : u < 64 ∧ v2 < 32 ∧ vxN ≤ u ∧ u < vxN + 8 ∧
            vyN + (ri + 1) ≤ v2 ∧ v2 < vyN + (ri + 1) + bs.length
        · obtain ⟨h64, h32, hge0, hlt8, hge, hlt⟩ := hA
          rw [if_pos ⟨h64, h32, hge0, hlt8, hge, hlt⟩]
          rw [if_pos ⟨h64, h32, hge0, hlt8, by omega, by rw [List.length_cons]; omega⟩]
          have hidx : v2 - (vyN + ri) = (v2 - (vyN + (ri + 1))) + 1 := by omega
          rw [hidx, List.getD_cons_succ]
        · rw [if_neg hA, if_neg]
          rintro ⟨h64, h32, hge0, hlt8, hge, hlt⟩
          by_cases hveq : v2 = vyN + ri
          · exact hB ⟨h64, hveq, by omega, u - vxN,
              List.mem_range.mpr (by omega), by omega⟩
          · exact hA ⟨h64, h32, hge0, hlt8, by omega,
              by rw [List.length_cons] at hlt; omega⟩
    all_goals
      have hiff2 : (∃ r, r < bs.length ∧ ∃ c2, c2 < 8 ∧ vxN + c2 < 64 ∧
          vyN + (ri + 1) + r < 32 ∧
          getCell (drawCols (vxN : ℚ) (vyN : ℚ) b ri (List.range 8) (g, regs)).1
            (vxN + c2) (vyN + (ri + 1) + r) ^^^ spriteBit (bs.getD r 0) c2 = 1) ↔
          (∃ r, r < bs.length ∧ ∃ c2, c2 < 8 ∧ vxN + c2 < 64 ∧
          vyN + (ri + 1) + r < 32 ∧
          getCell g (vxN + c2) (vyN + (ri + 1) + r) ^^^ spriteBit (bs.getD r 0) c2 = 1) := by
        constructor <;> rintro ⟨r, hr, c2, hc2, hb1, hb2, hval⟩ <;>
          refine ⟨r, hr, c2, hc2, hb1, hb2, ?_⟩
        · rw [cD] at hval
          rwa [if_neg (by rintro ⟨-, hveq, -⟩; omega)] at hval
        · rw [cD]
          rw [if_neg (by rintro ⟨-, hveq, -⟩; omega)]
          exact hval
    · -- some row collides: VF is set
      rintro ⟨r, hr, c3, hc3, hb1, hb2, hval⟩
      by_cases hbs : ∃ r, r < bs.length ∧ ∃ c2, c2 < 8 ∧ vxN + c2 < 64 ∧
          vyN + (ri + 1) + r < 32 ∧
          getCell g (vxN + c2) (vyN + (ri + 1) + r) ^^^ spriteBit (bs.getD r 0) c2 = 1
      · rw [rEpos (hiff2.mpr hbs), cE]
        by_cases h0 : ∃ c2, c2 ∈ List.range 8 ∧ vxN + c2 < 64 ∧ vyN + ri < 32 ∧
            getCell g (vxN + c2) (vyN + ri) ^^^ spriteBit b c2 = 1
        · rw [if_pos h0, List.set_set]
        · rw [if_neg h0]
      · cases r with
        | zero =>
          rw [Nat.add_zero] at hb2 hval
          rw [List.getD_cons_zero] at hval
          have h0 : ∃ c2, c2 ∈ List.range 8 ∧ vxN + c2 < 64 ∧ vyN + ri < 32 ∧
              getCell g (vxN + c2) (vyN + ri) ^^^ spriteBit b c2 = 1 :=
            ⟨c3, List.mem_range.mpr hc3, hb1, hb2, hval⟩
          rw [rEneg (fun hstc => hbs (hiff2.mp hstc)), cE, if_pos h0]
        | succ r2 =>
          exfalso
          rw [List.getD_cons_succ] at hval
          have hidx : vyN + ri + (r2 + 1) = vyN + (ri + 1) + r2 := by omega
          rw [hidx] at hb2 hval
          exact hbs ⟨r2, by rw [List.length_cons] at hr; omega, c3, hc3, hb1, hb2, hval⟩
    · -- no row collides: VF is left at 0
      intro hneg
      have hbs : ¬ (∃ r, r < bs.length ∧ ∃ c2, c2 < 8 ∧ vxN + c2 < 64 ∧
          vyN + (ri + 1) + r < 32 ∧
          getCell g (vxN + c2) (vyN + (ri + 1) + r) ^^^ spriteBit (bs.getD r 0) c2 = 1) := by
        rintro ⟨r, hr, c3, hc3, hb1, hb2, hval⟩
        refine hneg ⟨r + 1, by rw [List.length_cons]; omega, c3, hc3, hb1, ?_, ?_⟩
        · omega
        · have hidx : vyN + ri + (r + 1) = vyN + (ri + 1) + r := by omega
          rw [hidx, List.getD_cons_succ]
          exact hval
      have h0 : ¬ (∃ c2, c2 ∈ List.range 8 ∧ vxN + c2 < 64 ∧ vyN + ri < 32 ∧
          getCell g (vxN + c2) (vyN + ri) ^^^ spriteBit b c2 = 1) := by
        rintro ⟨c3, hc3, hb1, hb2, hval⟩
        refine hneg ⟨0, by rw [List.length_cons]; omega, c3, List.mem_range.mp hc3,
          hb1, by omega, ?_⟩
        rw [Nat.add_zero, List.getD_cons_zero]
        exact hval
      rw [rEneg (fun hstc => hbs (hiff2.mp hstc)), cE, if_neg h0]

theorem getD_map_natCast (l : List ℕ) (k : ℕ) :
    (l.map (Nat.cast : ℕ → ℚ)).getD k 0 = ((l.getD k 0 : ℕ) : ℚ) := by
  rw [List.getD_eq_getElem?_getD, List.getD_eq_getElem?_getD, List.getElem?_map]
  cases h : l[k]? <;> simp

/-- C2: `op_DXYN` first resets VF, then XORs each sprite bit into the
framebuffer cell at (Vx+column, Vy+row), skipping (and only skipping)
pixels outside the 64x32 grid; the final VF is 1 exactly when some
non-clipped XOR write results in a set cell — the collision-on-write
rule of the spec — independent of the clipped pixels and of the initial
VF. `vxN`/`vyN` are the Vx/Vy values read after the VF reset. -/
theorem op_DXYN_spec (x y n iN vxN vyN : ℕ) (s : Chip8) (R M : List ℕ)
    (hx : x < 16) (hy : y < 16)
    (hR : s.registers = R.map (Nat.cast : ℕ → ℚ)) (hRlen : R.length = 16)
    (hM : s.memory = M.map (Nat.cast : ℕ → ℚ)) (hMlen : M.length = 4096)
    (hi : s.address_i = (iN : ℚ)) (hrange : iN + n ≤ 4096)
    (hvx : (R.set 15 0).getD x 0 = vxN) (hvy : (R.set 15 0).getD y 0 = vyN)
    (hg64 : s.graphic_memory.length = 64)
    (hg32 : ∀ j, j < 64 → (s.graphic_memory.getD j []).length = 32)
    (hbits : ∀ a a2, getCell s.graphic_memory a a2 ≤ 1) :
    (∀ u v2, u < 64 → v2 < 32 →
      getCell (op_DXYN x y n s).graphic_memory u v2 =
        if vxN ≤ u ∧ u < vxN + 8 ∧ vyN ≤ v2 ∧ v2 < vyN + n
        then getCell s.graphic_memory u v2 ^^^
          spriteBitN (M.getD (iN + (v2 - vyN)) 0) (u - vxN)
        else getCell s.graphic_memory u v2) ∧
    ((∃ r, r < n ∧ ∃ c2, c2 < 8 ∧ vxN + c2 < 64 ∧ vyN + r < 32 ∧
        getCell s.graphic_memory (vxN + c2) (vyN + r) ^^^
          spriteBitN (M.getD (iN + r) 0) c2 = 1) →
      (op_DXYN x y n s).registers = s.registers.set 15 1) ∧
    ((¬ ∃ r, r < n ∧ ∃ c2, c2 < 8 ∧ vxN + c2 < 64 ∧ vyN + r < 32 ∧
        getCell s.graphic_memory (vxN + c2) (vyN + r) ^^^
          spriteBitN (M.getD (iN + r) 0) c2 = 1) →
      (op_DXYN x y n s).registers = s.registers.set 15 0) ∧
    ((op_DXYN x y n s).registers.getD 15 0 = 1 ↔
      (∃ r, r < n ∧ ∃ c2, c2 < 8 ∧ vxN + c2 < 64 ∧ vyN + r < 32 ∧
        getCell s.graphic_memory (vxN + c2) (vyN + r) ^^^
          spriteBitN (M.getD (iN + r) 0) c2 = 1)) := by
  have hreglen : s.registers.length = 16 := by
    rw [hR, List.length_map, hRlen]
  have hcast0 : (0 : ℚ) = ((0 : ℕ) : ℚ) := by norm_num
  have hregs0 : s.registers.set 15 0 = (R.set 15 0).map (Nat.cast : ℕ → ℚ) := by
    rw [hR, hcast0, ← List.map_set]
  have hvxq : (s.registers.set 15 0).getD x 0 = ((vxN : ℕ) : ℚ) := by
    rw [hregs0, getD_map_natCast, hvx]
  have hvyq : (s.registers.set 15 0).getD y 0 = ((vyN : ℕ) : ℚ) := by
    rw [hregs0, getD_map_natCast, hvy]
  have hipy : pyIdx s.address_i = iN := by
    rw [hi, pyIdx_natCast]
  have hMSlen : (pySlice M iN (iN + n)).length = n := by
    unfold pySlice
    rw [List.length_take, List.length_drop, hMlen]
    omega
  have hMSget : ∀ k, k < n → (pySlice M iN (iN + n)).getD k 0 = M.getD (iN + k) 0 := by
    intro k hk
    unfold pySlice
    rw [List.getD_eq_getElem?_getD, List.getElem?_take_of_lt (by omega),
      List.getElem?_drop, List.getD_eq_getElem?_getD]
  have hrows : pySlice s.memory iN (iN + n) =
      (pySlice M iN (iN + n)).map (Nat.cast : ℕ → ℚ) := by
    unfold pySlice
    rw [hM, ← List.map_drop, ← List.map_take]
  obtain ⟨rA, rB, rC, rD, rEpos, rEneg⟩ :=
    drawRows_spec vxN vyN ((pySlice M iN (iN + n)).map (Nat.cast : ℕ → ℚ)) 0
      s.graphic_memory (s.registers.set 15 0) hg64 hg32 hbits
  have hop : op_DXYN x y n s =
      { s with
        graphic_memory := (drawRows (vxN : ℚ) (vyN : ℚ)
          ((pySlice M iN (iN + n)).map (Nat.cast : ℕ → ℚ)) 0
          (s.graphic_memory, s.registers.set 15 0)).1,
        registers := (drawRows (vxN : ℚ) (vyN : ℚ)
          ((pySlice M iN (iN + n)).map (Nat.cast : ℕ → ℚ)) 0
          (s.graphic_memory, s.registers.set 15 0)).2,
        screen_changed := true } := by
    simp only [op_DXYN, hvxq, hvyq, hipy, hrows]
  have hopg : (op_DXYN x y n s).graphic_memory =
      (drawRows (vxN : ℚ) (vyN : ℚ)
        ((pySlice M iN (iN + n)).map (Nat.cast : ℕ → ℚ)) 0
        (s.graphic_memory, s.registers.set 15 0)).1 := by
    rw [hop]
  have hopr : (op_DXYN x y n s).registers =
      (drawRows (vxN : ℚ) (vyN : ℚ)
        ((pySlice M iN (iN + n)).map (Nat.cast : ℕ → ℚ)) 0
        (s.graphic_memory, s.registers.set 15 0)).2 := by
    rw [hop]
  have hPiff : ∀ r c2, r < n →
      (getCell s.graphic_memory (vxN + c2) (vyN + 0 + r) ^^^
        spriteBit (((pySlice M iN (iN + n)).map (Nat.cast : ℕ → ℚ)).getD r 0) c2 = 1 ↔
      getCell s.graphic_memory (vxN + c2) (vyN + r) ^^^
        spriteBitN (M.getD (iN + r) 0) c2 = 1) := by
    intro r c2 hr
    rw [show vyN + 0 + r = vyN + r from by omega, getD_map_natCast,
      hMSget r hr, spriteBit_eq_natCast]
  have htrans : (∃ r, r < n ∧ ∃ c2, c2 < 8 ∧ vxN + c2 < 64 ∧ vyN + r < 32 ∧
      getCell s.graphic_memory (vxN + c2) (vyN + r) ^^^
        spriteBitN (M.getD (iN + r) 0) c2 = 1) ↔
      (∃ r, r < ((pySlice M iN (iN + n)).map (Nat.cast : ℕ → ℚ)).length ∧
        ∃ c2, c2 < 8 ∧ vxN + c2 < 64 ∧ vyN + 0 + r < 32 ∧
        getCell s.graphic_memory (vxN + c2) (vyN + 0 + r) ^^^
          spriteBit (((pySlice M iN (iN + n)).map (Nat.cast : ℕ → ℚ)).getD r 0) c2 = 1) := by
    rw [List.length_map, hMSlen]
    constructor <;> rintro ⟨r, hr, c2, hc2, hb1, hb2, hval⟩ <;>
      refine ⟨r, hr, c2, hc2, hb1, by omega, ?_⟩
    · rw [hPiff r c2 hr]
      exact hval
    · rw [hPiff r c2 hr] at hval
      exact hval
  refine ⟨?_, ?_, ?_, ?_⟩
  · intro u v2 hu hv
    rw [hopg, rD u v2]
    by_cases hcond : vxN ≤ u ∧ u < vxN + 8 ∧ vyN ≤ v2 ∧ v2 < vyN + n
    · obtain ⟨hc1, hc2, hc3, hc4⟩ := hcond
      rw [if_pos ⟨hu, hv, hc1, hc2, by omega,
        by rw [List.length_map, hMSlen]; omega⟩]
      rw [if_pos ⟨hc1, hc2, hc3, hc4⟩]
      rw [show v2 - (vyN + 0) = v2 - vyN from by omega, getD_map_natCast,
        hMSget (v2 - vyN) (by omega), spriteBit_eq_natCast]
    · rw [if_neg, if_neg hcond]
      rintro ⟨-, -, h3, h4, h5, h6⟩
      rw [List.length_map, hMSlen] at h6
      exact hcond ⟨h3, h4, by omega, by omega⟩
  · intro hP
    rw [hopr, rEpos (htrans.mp hP), List.set_set]
  · intro hP
    rw [hopr, rEneg (fun hc => hP (htrans.mpr hc))]
  · constructor
    · intro h1
      by_contra hP
      rw [hopr, rEneg (fun hc => hP (htrans.mpr hc))] at h1
      rw [getD_set_self _ _ _ _ (by omega)] at h1
      norm_num at h1
    · intro hP
      rw [hopr, rEpos (htrans.mp hP), List.set_set]
      rw [getD_set_self _ _ _ _ (by omega)]

theorem op_DXYN_spec_witness :
    (∀ u v2, u < 64 → v2 < 32 →
      getCell (op_DXYN 0 0 1 baseState).graphic_memory u v2 =
        if 0 ≤ u ∧ u < 0 + 8 ∧ 0 ≤ v2 ∧ v2 < 0 + 1
        then getCell baseState.graphic_memory u v2 ^^^
          spriteBitN ((List.replicate 4096 0).getD (0 + (v2 - 0)) 0) (u - 0)
        else getCell baseState.graphic_memory u v2) ∧
    ((∃ r, r < 1 ∧ ∃ c2, c2 < 8 ∧ 0 + c2 < 64 ∧ 0 + r < 32 ∧
        getCell baseState.graphic_memory (0 + c2) (0 + r) ^^^
          spriteBitN ((List.replicate 4096 0).getD (0 + r) 0) c2 = 1) →
      (op_DXYN 0 0 1 baseState).registers = baseState.registers.set 15 1) ∧
    ((¬ ∃ r, r < 1 ∧ ∃ c2, c2 < 8 ∧ 0 + c2 < 64 ∧ 0 + r < 32 ∧
        getCell baseState.graphic_memory (0 + c2) (0 + r) ^^^
          spriteBitN ((List.replicate 4096 0).getD (0 + r) 0) c2 = 1) →
      (op_DXYN 0 0 1 baseState).registers = baseState.registers.set 15 0) ∧
    ((op_DXYN 0 0 1 baseState).registers.getD 15 0 = 1 ↔
      (∃ r, r < 1 ∧ ∃ c2, c2 < 8 ∧ 0 + c2 < 64 ∧ 0 + r < 32 ∧
        getCell baseState.graphic_memory (0 + c2) (0 + r) ^^^
          spriteBitN ((List.replicate 4096 0).getD (0 + r) 0) c2 = 1)) :=
  op_DXYN_spec 0 0 1 0 0 0 baseState (List.replicate 16 0) (List.replicate 4096 0)
    (by decide) (by decide)
    (by rw [List.map_replicate, Nat.cast_zero]; rfl)
    (by rw [List.length_replicate])
    (by rw [List.map_replicate, Nat.cast_zero]; rfl)
    (by rw [List.length_replicate])
    (by rw [Nat.cast_zero]; rfl)
    (by decide) (by decide) (by decide)
    (by rw [show baseState.graphic_memory = clearGfx from rfl, clearGfx,
      List.length_replicate])
    (by
      intro j hj
      show ((clearGfx).getD j []).length = 32
      rw [clearGfx, getD_replicate, if_pos hj]
      simp)
    (by
      intro a a2
      show getCell clearGfx a a2 ≤ 1
      unfold getCell clearGfx
      rw [getD_replicate]
      split
      · rw [getD_replicate]
        split <;> decide
      · simp [List.getD_eq_getElem?_getD])

end Chip8Emu
